import Mathlib

/-!
Verification of the dungeon-explorer console game (`src/python.py`) and the
quote-fetch utility (`src/trump_quote.py`).

The Python module mutates a single `world` dict in place and draws from the
global `random` module.  The embedding makes both explicit: `World` is a
structure threaded through the update functions, and `Rng` is a pair of
streams, one of naturals (each `random.randrange(n)` consumes one value and
reduces it modulo the range) and one of rationals in place of the floats
produced by `random.random()`.  Loops with a fixed try budget
(`place_random`, `spawn_exit`, `maybe_spawn`) become structural recursion on
that budget.
-/

namespace Dungeon

/-- The cell symbols of the grid: "." floor, "#" wall, "T" treasure,
"X" trap, "❤" heal, "E" exit. -/
inductive Cell where
  | floor
  | wall
  | treasure
  | trap
  | heal
  | exitDoor
deriving DecidableEq, Repr

abbrev Grid := List (List Cell)

/-- `grid[y][x]` where both indices are known in range; out of range it
returns `Cell.wall` (the Python code only indexes in range). -/
def getCell (g : Grid) (x y : Nat) : Cell :=
  (g.getD y []).getD x Cell.wall

/-- `grid[y][x] = c`; out of range it leaves the grid unchanged. -/
def setCell (g : Grid) (x y : Nat) (c : Cell) : Grid :=
  g.set y ((g.getD y []).set x c)

/-- The random source: `nats` feeds `random.randrange`, `floats` (as exact
rationals) feeds `random.random()`. -/
structure Rng where
  nats : List Nat
  floats : List ℚ
deriving DecidableEq, Repr

/-- Draw one raw natural from the stream (0 once the stream is exhausted). -/
def nextNat (r : Rng) : Nat × Rng :=
  (r.nats.headD 0, { r with nats := r.nats.tail })

/-- `random.randrange(n)`: a value in `[0, n)`. -/
def randrange (n : Nat) (r : Rng) : Nat × Rng :=
  let (v, r1) := nextNat r
  (v % n, r1)

/-- `random.randrange(lo, hi)`: a value in `[lo, hi)`. -/
def randrangeI (lo hi : Nat) (r : Rng) : Nat × Rng :=
  let (v, r1) := nextNat r
  (lo + v % (hi - lo), r1)

/-- `random.random()`: one value from the rational stream (1 once the
stream is exhausted, so an empty stream never triggers a spawn). -/
def randFloat (r : Rng) : ℚ × Rng :=
  (r.floats.headD 1, { r with floats := r.floats.tail })

/-- `random.choice(lst)`. -/
def choice (l : List String) (r : Rng) : String × Rng :=
  let (v, r1) := nextNat r
  (l.getD (v % l.length) "", r1)

/-- `clamp(n, lo, hi)` from the source: `max(lo, min(hi, n))`. -/
def clamp (n lo hi : Int) : Int :=
  max lo (min hi n)

/-- `count_symbol(grid, symbol)`: `sum(row.count(symbol) for row in grid)`. -/
def count_symbol (g : Grid) (symbol : Cell) : Nat :=
  (g.map (fun row => row.count symbol)).sum

/-- `make_grid(width, height, fill)`. -/
def make_grid (width height : Nat) (fill : Cell := Cell.floor) : Grid :=
  List.replicate height (List.replicate width fill)

/-- The retry loop of `place_random`: `rem` symbols still to place, `fuel`
tries left out of the initial 10000.  Each try draws `x = randrange(w)` and
`y = randrange(h)`, skips forbidden or occupied cells, and writes `symbol`
on a free floor cell. -/
def place_random_go (w h : Nat) (symbol : Cell) (forbidden : List (Nat × Nat)) :
    Nat → Nat → Grid → Rng → Grid × Rng
  | _, 0, g, r => (g, r)
  | 0, _ + 1, g, r => (g, r)
  | fuel + 1, rem + 1, g, r =>
    let (x, r1) := randrange w r
    let (y, r2) := randrange h r1
    if (x, y) ∈ forbidden then
      place_random_go w h symbol forbidden fuel (rem + 1) g r2
    else if getCell g x y ≠ Cell.floor then
      place_random_go w h symbol forbidden fuel (rem + 1) g r2
    else
      place_random_go w h symbol forbidden fuel rem (setCell g x y symbol) r2

/-- `place_random(grid, symbol, count, forbidden)` with its budget of
10000 tries. -/
def place_random (g : Grid) (symbol : Cell) (count : Nat)
    (forbidden : List (Nat × Nat)) (r : Rng) : Grid × Rng :=
  place_random_go (g.getD 0 []).length g.length symbol forbidden 10000 count g r

/-- The narration strings of `python.py`, verbatim. -/
def msg_welcome : String := "Bienvenue ! Déplace-toi avec zqsd (ou wasd)."

def msg_blocked : String := "🧱 Ouch, un mur !"

def msg_treasure : String := "💰 Trésor trouvé ! +10 points."

def msg_trap : String := "💥 Piège ! -1 PV."

def msg_heal : String := "💖 Soin ! +2 PV."

def msg_victory : String := "🏁 Tu as trouvé la sortie ! VICTOIRE !"

def msg_exit_spawned : String :=
  "✨ Tous les trésors sont ramassés ! Une sortie 'E' est apparue !"

def msg_exit_fail : String := "⚠️ Sortie impossible à placer (carte trop remplie)."

def msg_unknown : String := "Commande inconnue. Tape 'h' pour l'aide."

/-- The flavour text `maybe_spawn` appends: one string for a treasure,
another for a trap. -/
def spawn_flavor (symbol : Cell) : String :=
  if symbol = Cell.treasure then " (Un éclat doré apparaît quelque part...)"
  else " (Une sensation de danger plane...)"

/-- The world dict of `build_world`, with `player_pos = (x, y)`. -/
structure World where
  grid : Grid
  player_pos : Nat × Nat
  score : Int
  hp : Int
  turn : Nat
  message : String
  exit_spawned : Bool
  won : Bool
deriving DecidableEq, Repr

/-- The border cells forbidden to `place_random`, together with the player
start: the sets built by the two `forbidden.add` loops of `build_world`. -/
def border_forbidden (width height : Nat) (px py : Nat) : List (Nat × Nat) :=
  (px, py) ::
    ((List.range width).flatMap (fun x => [(x, 0), (x, height - 1)]) ++
      (List.range height).flatMap (fun y => [(0, y), (width - 1, y)]))

/-- The two border-wall loops of `build_world`: `grid[0][x] = "#"`,
`grid[height-1][x] = "#"` for every `x`, then `grid[y][0] = "#"`,
`grid[y][width-1] = "#"` for every `y`. -/
def set_borders (g : Grid) (width height : Nat) : Grid :=
  let g1 := (List.range width).foldl
    (fun g x => setCell (setCell g x 0 Cell.wall) x (height - 1) Cell.wall) g
  (List.range height).foldl
    (fun g y => setCell (setCell g 0 y Cell.wall) (width - 1) y Cell.wall) g1

/-- `build_world(width, height)`: bordered grid, random obstacles, treasures,
traps, one heal, player at the centre, score 0, hp 5, turn 0. -/
def build_world (width height : Nat) (r : Rng) : World × Rng :=
  let px := width / 2
  let py := height / 2
  let g0 := set_borders (make_grid width height) width height
  let forbidden := border_forbidden width height px py
  let (g1, r1) := place_random g0 Cell.wall (max 6 ((width * height) / 18)) forbidden r
  let (g2, r2) := place_random g1 Cell.treasure (max 4 ((width * height) / 30)) forbidden r1
  let (g3, r3) := place_random g2 Cell.trap (max 4 ((width * height) / 35)) forbidden r2
  let (g4, r4) := place_random g3 Cell.heal 1 forbidden r3
  ({ grid := g4,
     player_pos := (px, py),
     score := 0,
     hp := 5,
     turn := 0,
     message := msg_welcome,
     exit_spawned := false,
     won := false }, r4)

/-- `help_text()`. -/
def help_text : String :=
  "AIDE:\n- '.' = sol\n- '#' = mur (bloque)\n- 'T' = trésor (+10 points)\n" ++
  "- 'X' = piège (-1 PV)\n- '❤' = soin (+2 PV)\n" ++
  "- 'E' = sortie (apparaît quand tous les trésors sont ramassés)\n" ++
  "Objectif: Ramasser tous les trésors puis trouver la sortie.\n"

/-- The retry loop of `spawn_exit`: up to `fuel` (initially 200) draws of
`x = randrange(1, w-1)`, `y = randrange(1, h-1)`; skips the player cell;
writes `E` on the first floor cell found and reports success. -/
def spawn_exit_go (px py w h : Nat) :
    Nat → Grid → Rng → Grid × Bool × Rng
  | 0, g, r => (g, false, r)
  | fuel + 1, g, r =>
    let (x, r1) := randrangeI 1 (w - 1) r
    let (y, r2) := randrangeI 1 (h - 1) r1
    if (x, y) = (px, py) then
      spawn_exit_go px py w h fuel g r2
    else if getCell g x y = Cell.floor then
      (setCell g x y Cell.exitDoor, true, r2)
    else
      spawn_exit_go px py w h fuel g r2

/-- `spawn_exit(world)`: on success the exit is placed, `exit_spawned` is set
and the message announces the exit; on exhaustion only the message changes
(and `exit_spawned` stays as it was). -/
def spawn_exit (world : World) (r : Rng) : World × Rng :=
  let h := world.grid.length
  let w := (world.grid.getD 0 []).length
  match spawn_exit_go world.player_pos.1 world.player_pos.2 w h 200 world.grid r with
  | (g2, true, r2) =>
    ({ world with
        grid := g2,
        exit_spawned := true,
        message := msg_exit_spawned }, r2)
  | (_, false, r2) =>
    ({ world with message := msg_exit_fail }, r2)

/-- The four flavour strings `try_move` picks from on an empty floor cell. -/
def flavor_msgs : List String :=
  ["Tu avances prudemment...",
   "Rien d'intéressant ici.",
   "Le donjon est silencieux.",
   "Tu entends un bruit au loin 👀"]

/-- The retry loop of `maybe_spawn`: up to `fuel` (initially 60) draws of an
interior cell; skips the player cell; writes `symbol` on the first floor cell
found and appends the matching flavour text to the message. -/
def maybe_spawn_go (px py w h : Nat) (symbol : Cell) :
    Nat → World → Rng → World × Rng
  | 0, world, r => (world, r)
  | fuel + 1, world, r =>
    let (x, r1) := randrangeI 1 (w - 1) r
    let (y, r2) := randrangeI 1 (h - 1) r1
    if (x, y) = (px, py) then
      maybe_spawn_go px py w h symbol fuel world r2
    else if getCell world.grid x y = Cell.floor then
      ({ world with
          grid := setCell world.grid x y symbol,
          message := world.message ++ spawn_flavor symbol }, r2)
    else
      maybe_spawn_go px py w h symbol fuel world r2

/-- `maybe_spawn(world)`: disabled once the exit has spawned; otherwise one
roll of `random.random()` decides between a new treasure (roll < 0.12), a new
trap (roll < 0.20) or nothing. -/
def maybe_spawn (world : World) (r : Rng) : World × Rng :=
  if world.exit_spawned then (world, r)
  else
    let (roll, r1) := randFloat r
    if roll < 0.12 then
      maybe_spawn_go world.player_pos.1 world.player_pos.2
        (world.grid.getD 0 []).length world.grid.length Cell.treasure 60 world r1
    else if roll < 0.20 then
      maybe_spawn_go world.player_pos.1 world.player_pos.2
        (world.grid.getD 0 []).length world.grid.length Cell.trap 60 world r1
    else (world, r1)

/-- The two post-move steps of `try_move` (its lines after the interaction
if-chain): spawn the exit when no exit has spawned and no treasure is left,
then `maybe_spawn`. -/
def post_move (world : World) (r : Rng) : World × Rng :=
  let (world1, r1) :=
    if world.exit_spawned = false ∧ count_symbol world.grid Cell.treasure = 0 then
      spawn_exit world r
    else (world, r)
  maybe_spawn world1 r1

/-- The candidate destination of `try_move`: `(px + dx, py + dy)`, each
coordinate clamped into the grid (y into `[0, len(grid) - 1]`, x into
`[0, len(grid[0]) - 1]`), as the `nx`, `ny` lines of the source compute it. -/
def dest (world : World) (dx dy : Int) : Nat × Nat :=
  ((clamp ((world.player_pos.1 : Int) + dx) 0
      (((world.grid.getD 0 []).length : Int) - 1)).toNat,
   (clamp ((world.player_pos.2 : Int) + dy) 0
      ((world.grid.length : Int) - 1)).toNat)

/-- The cell the candidate destination holds. -/
def destCell (world : World) (dx dy : Int) : Cell :=
  getCell world.grid (dest world dx dy).1 (dest world dx dy).2

/-- `try_move(world, dx, dy)`: clamp the candidate cell into the grid, block
on a wall, otherwise move, resolve the cell (treasure / trap / heal / exit /
flavour) and, except on the exit, run the post-move steps. -/
def try_move (world : World) (dx dy : Int) (r : Rng) : World × Rng :=
  let g := world.grid
  let nx := (dest world dx dy).1
  let ny := (dest world dx dy).2
  let target := getCell g nx ny
  if target = Cell.wall then
    ({ world with message := msg_blocked }, r)
  else
    let world1 := { world with player_pos := (nx, ny), turn := world.turn + 1 }
    if target = Cell.treasure then
      post_move
        { world1 with
            score := world1.score + 10,
            message := msg_treasure,
            grid := setCell g nx ny Cell.floor } r
    else if target = Cell.trap then
      post_move
        { world1 with
            hp := world1.hp - 1,
            message := msg_trap,
            grid := setCell g nx ny Cell.floor } r
    else if target = Cell.heal then
      post_move
        { world1 with
            hp := world1.hp + 2,
            message := msg_heal,
            grid := setCell g nx ny Cell.floor } r
    else if target = Cell.exitDoor then
      ({ world1 with won := true, message := msg_victory }, r)
    else
      let (msg, r1) := choice flavor_msgs r
      post_move { world1 with message := msg } r1

/-- Python `str.strip()`: drop whitespace from both ends, on the character
list of the string. -/
def pyStrip (s : List Char) : List Char :=
  ((s.dropWhile Char.isWhitespace).reverse.dropWhile Char.isWhitespace).reverse

/-- Python `str.lower()`. -/
def pyLower (s : List Char) : List Char :=
  s.map Char.toLower

/-- `parse_command(cmd)`: `cmd.strip().lower()[:1] if cmd else ""`. -/
def parse_command (cmd : String) : String :=
  if cmd = "" then "" else ⟨(pyLower (pyStrip cmd.data)).take 1⟩

/-- The `moves` dict of `game_loop`: zqsd (azerty) and wasd (qwerty). -/
def moves : List (String × Int × Int) :=
  [("z", (0, -1)), ("w", (0, -1)), ("s", (0, 1)),
   ("q", (-1, 0)), ("a", (-1, 0)), ("d", (1, 0))]

/-- What one iteration of `game_loop` does with the world. -/
inductive StepResult where
  | quit
  | next (world : World)
deriving DecidableEq, Repr

/-- One iteration of `game_loop`: on a won or dead world the prompt offers
replay (`r`) or anything else to quit; otherwise the parsed command is
dispatched (`x` quit, `h` help, `r` restart, a movement key, or the
unknown-command notice). -/
def loop_step (width height : Nat) (world : World) (input : String) (r : Rng) :
    StepResult × Rng :=
  if world.won then
    if parse_command input = "r" then
      let (w2, r2) := build_world width height r
      (StepResult.next w2, r2)
    else (StepResult.quit, r)
  else if world.hp ≤ 0 then
    if parse_command input = "r" then
      let (w2, r2) := build_world width height r
      (StepResult.next w2, r2)
    else (StepResult.quit, r)
  else
    let cmd := parse_command input
    if cmd = "x" then (StepResult.quit, r)
    else if cmd = "h" then (StepResult.next { world with message := help_text }, r)
    else if cmd = "r" then
      let (w2, r2) := build_world width height r
      (StepResult.next w2, r2)
    else
      match moves.lookup cmd with
      | some d =>
        let (w2, r2) := try_move world d.1 d.2 r
        (StepResult.next w2, r2)
      | none =>
        (StepResult.next { world with message := msg_unknown }, r)

/-! ### Exception-aware variants

Python raises on an out-of-range index and on an empty `randrange` range.
The functions below mirror the source exactly but return `none` where the
Python code would raise, so "no operation raises" becomes `isSome`. -/

/-- `random.randrange(n)`: raises `ValueError` when the range is empty. -/
def randrangeE (n : Nat) (r : Rng) : Option (Nat × Rng) :=
  if n = 0 then none else some (randrange n r)

/-- `random.randrange(lo, hi)`: raises `ValueError` when `hi ≤ lo`. -/
def randrangeIE (lo hi : Nat) (r : Rng) : Option (Nat × Rng) :=
  if hi ≤ lo then none else some (randrangeI lo hi r)

/-- `grid[y][x]`: raises `IndexError` out of range. -/
def getCellE (g : Grid) (x y : Nat) : Option Cell :=
  g[y]?.bind fun row => row[x]?

/-- `grid[y][x] = c`: raises `IndexError` out of range. -/
def setCellE (g : Grid) (x y : Nat) (c : Cell) : Option Grid :=
  g[y]?.bind fun row =>
    if x < row.length then some (setCell g x y c) else none

/-- `random.choice(lst)`: raises `IndexError` on an empty list. -/
def choiceE (l : List String) (r : Rng) : Option (String × Rng) :=
  if l.isEmpty then none else some (choice l r)

/-- `place_random`, with every raise made explicit. -/
def place_random_goE (w h : Nat) (symbol : Cell) (forbidden : List (Nat × Nat)) :
    Nat → Nat → Grid → Rng → Option (Grid × Rng)
  | _, 0, g, r => some (g, r)
  | 0, _ + 1, g, r => some (g, r)
  | fuel + 1, rem + 1, g, r => do
    let (x, r1) ← randrangeE w r
    let (y, r2) ← randrangeE h r1
    if (x, y) ∈ forbidden then
      place_random_goE w h symbol forbidden fuel (rem + 1) g r2
    else
      let c ← getCellE g x y
      if c ≠ Cell.floor then
        place_random_goE w h symbol forbidden fuel (rem + 1) g r2
      else do
        let g2 ← setCellE g x y symbol
        place_random_goE w h symbol forbidden fuel rem g2 r2

def place_randomE (g : Grid) (symbol : Cell) (count : Nat)
    (forbidden : List (Nat × Nat)) (r : Rng) : Option (Grid × Rng) :=
  place_random_goE (g.getD 0 []).length g.length symbol forbidden 10000 count g r

/-- The border loops of `build_world`, with every raise made explicit. -/
def set_bordersE (g : Grid) (width height : Nat) : Option Grid := do
  let g1 ← (List.range width).foldlM
    (fun g x => do
      let ga ← setCellE g x 0 Cell.wall
      setCellE ga x (height - 1) Cell.wall) g
  (List.range height).foldlM
    (fun g y => do
      let ga ← setCellE g 0 y Cell.wall
      setCellE ga (width - 1) y Cell.wall) g1

/-- `build_world`, with every raise made explicit. -/
def build_worldE (width height : Nat) (r : Rng) : Option (World × Rng) := do
  let px := width / 2
  let py := height / 2
  let g0 ← set_bordersE (make_grid width height) width height
  let forbidden := border_forbidden width height px py
  let (g1, r1) ← place_randomE g0 Cell.wall (max 6 ((width * height) / 18)) forbidden r
  let (g2, r2) ← place_randomE g1 Cell.treasure (max 4 ((width * height) / 30)) forbidden r1
  let (g3, r3) ← place_randomE g2 Cell.trap (max 4 ((width * height) / 35)) forbidden r2
  let (g4, r4) ← place_randomE g3 Cell.heal 1 forbidden r3
  some ({ grid := g4,
          player_pos := (px, py),
          score := 0,
          hp := 5,
          turn := 0,
          message := msg_welcome,
          exit_spawned := false,
          won := false }, r4)

/-- `spawn_exit`, with every raise made explicit. -/
def spawn_exit_goE (px py w h : Nat) :
    Nat → Grid → Rng → Option (Grid × Bool × Rng)
  | 0, g, r => some (g, false, r)
  | fuel + 1, g, r => do
    let (x, r1) ← randrangeIE 1 (w - 1) r
    let (y, r2) ← randrangeIE 1 (h - 1) r1
    if (x, y) = (px, py) then
      spawn_exit_goE px py w h fuel g r2
    else do
      let c ← getCellE g x y
      if c = Cell.floor then do
        let g2 ← setCellE g x y Cell.exitDoor
        some (g2, true, r2)
      else
        spawn_exit_goE px py w h fuel g r2

def spawn_exitE (world : World) (r : Rng) : Option (World × Rng) := do
  let h := world.grid.length
  let w := (world.grid.getD 0 []).length
  match ← spawn_exit_goE world.player_pos.1 world.player_pos.2 w h 200 world.grid r with
  | (g2, true, r2) =>
    some ({ world with
        grid := g2,
        exit_spawned := true,
        message := msg_exit_spawned }, r2)
  | (_, false, r2) =>
    some ({ world with message := msg_exit_fail }, r2)

/-- `maybe_spawn`, with every raise made explicit. -/
def maybe_spawn_goE (px py w h : Nat) (symbol : Cell) :
    Nat → World → Rng → Option (World × Rng)
  | 0, world, r => some (world, r)
  | fuel + 1, world, r => do
    let (x, r1) ← randrangeIE 1 (w - 1) r
    let (y, r2) ← randrangeIE 1 (h - 1) r1
    if (x, y) = (px, py) then
      maybe_spawn_goE px py w h symbol fuel world r2
    else do
      let c ← getCellE world.grid x y
      if c = Cell.floor then do
        let g2 ← setCellE world.grid x y symbol
        some ({ world with
            grid := g2,
            message := world.message ++ spawn_flavor symbol }, r2)
      else
        maybe_spawn_goE px py w h symbol fuel world r2

def maybe_spawnE (world : World) (r : Rng) : Option (World × Rng) :=
  if world.exit_spawned then some (world, r)
  else
    let (roll, r1) := randFloat r
    if roll < 0.12 then
      maybe_spawn_goE world.player_pos.1 world.player_pos.2
        (world.grid.getD 0 []).length world.grid.length Cell.treasure 60 world r1
    else if roll < 0.20 then
      maybe_spawn_goE world.player_pos.1 world.player_pos.2
        (world.grid.getD 0 []).length world.grid.length Cell.trap 60 world r1
    else some (world, r1)

def post_moveE (world : World) (r : Rng) : Option (World × Rng) := do
  let (world1, r1) ←
    if world.exit_spawned = false ∧ count_symbol world.grid Cell.treasure = 0 then
      spawn_exitE world r
    else some (world, r)
  maybe_spawnE world1 r1

/-- `try_move`, with every raise made explicit. -/
def try_moveE (world : World) (dx dy : Int) (r : Rng) : Option (World × Rng) := do
  let g := world.grid
  let nx := (dest world dx dy).1
  let ny := (dest world dx dy).2
  let target ← getCellE g nx ny
  if target = Cell.wall then
    some ({ world with message := msg_blocked }, r)
  else
    let world1 := { world with player_pos := (nx, ny), turn := world.turn + 1 }
    if target = Cell.treasure then do
      let g2 ← setCellE g nx ny Cell.floor
      post_moveE
        { world1 with
            score := world1.score + 10,
            message := msg_treasure,
            grid := g2 } r
    else if target = Cell.trap then do
      let g2 ← setCellE g nx ny Cell.floor
      post_moveE
        { world1 with
            hp := world1.hp - 1,
            message := msg_trap,
            grid := g2 } r
    else if target = Cell.heal then do
      let g2 ← setCellE g nx ny Cell.floor
      post_moveE
        { world1 with
            hp := world1.hp + 2,
            message := msg_heal,
            grid := g2 } r
    else if target = Cell.exitDoor then
      some ({ world1 with won := true, message := msg_victory }, r)
    else do
      let (msg, r1) ← choiceE flavor_msgs r
      post_moveE { world1 with message := msg } r1

/-! ### The predicates of the verification -/

/-- Every wall cell of `g` is still a wall cell in `g'`. -/
def preservesWalls (g g' : Grid) : Prop :=
  ∀ p q, getCell g p q = Cell.wall → getCell g' p q = Cell.wall

/-- The grid is `h` rows of `w` cells each. -/
def rectGrid (g : Grid) (w h : Nat) : Prop :=
  g.length = h ∧ ∀ row ∈ g, row.length = w

instance (g : Grid) (w h : Nat) : Decidable (rectGrid g w h) := by
  unfold rectGrid
  infer_instance

/-- Every cell of the border ring (column 0 or width-1, row 0 or height-1)
is a wall. -/
def borderWall (width height : Nat) (g : Grid) : Prop :=
  ∀ p, p < width → ∀ q, q < height →
    (p = 0 ∨ p = width - 1 ∨ q = 0 ∨ q = height - 1) → getCell g p q = Cell.wall

instance (width height : Nat) (g : Grid) : Decidable (borderWall width height g) := by
  unfold borderWall
  infer_instance

/-- The grid holds exactly one exit cell when `exit_spawned` is set and none
otherwise. -/
def exit_inv (w : World) : Prop :=
  count_symbol w.grid Cell.exitDoor = (if w.exit_spawned then 1 else 0)

instance (w : World) : Decidable (exit_inv w) := by
  unfold exit_inv
  infer_instance

/-- The player coordinate is inside the grid and not on a wall. -/
def player_ok (w : World) : Prop :=
  w.player_pos.2 < w.grid.length ∧
  w.player_pos.1 < (w.grid.getD w.player_pos.2 []).length ∧
  getCell w.grid w.player_pos.1 w.player_pos.2 ≠ Cell.wall

instance (w : World) : Decidable (player_ok w) := by
  unfold player_ok
  infer_instance

/-! ### Concrete sample data (used to instantiate the theorems) -/

/-- A 5 by 5 map: border walls, one treasure north of the player, a wall to
the west, a trap to the east, a heal to the south. -/
def sampleGrid : Grid :=
  [[Cell.wall, Cell.wall, Cell.wall, Cell.wall, Cell.wall],
   [Cell.wall, Cell.floor, Cell.treasure, Cell.floor, Cell.wall],
   [Cell.wall, Cell.wall, Cell.floor, Cell.trap, Cell.wall],
   [Cell.wall, Cell.floor, Cell.heal, Cell.floor, Cell.wall],
   [Cell.wall, Cell.wall, Cell.wall, Cell.wall, Cell.wall]]

def sampleWorld : World :=
  { grid := sampleGrid,
    player_pos := (2, 2),
    score := 0,
    hp := 5,
    turn := 0,
    message := msg_welcome,
    exit_spawned := false,
    won := false }

/-- Like `sampleWorld`, but the exit has spawned north of the player. -/
def exitWorld : World :=
  { sampleWorld with
      grid :=
        [[Cell.wall, Cell.wall, Cell.wall, Cell.wall, Cell.wall],
         [Cell.wall, Cell.floor, Cell.exitDoor, Cell.floor, Cell.wall],
         [Cell.wall, Cell.wall, Cell.floor, Cell.trap, Cell.wall],
         [Cell.wall, Cell.floor, Cell.heal, Cell.floor, Cell.wall],
         [Cell.wall, Cell.wall, Cell.wall, Cell.wall, Cell.wall]],
      exit_spawned := true }

def wonWorld : World := { sampleWorld with won := true }

def sampleRng : Rng := { nats := [1, 1, 2, 3, 1, 3], floats := [1/2] }

end Dungeon

namespace TrumpQuote

/-- A decoded JSON value, the possible results of `json.loads`. -/
inductive Json where
  | null
  | bool (b : Bool)
  | num (q : ℚ)
  | str (s : String)
  | arr (elems : List Json)
  | obj (fields : List (String × Json))

/-- What one call of `urllib.request.urlopen` plus `resp.read()` can come
back with, abstracting the network: either `urllib.error.URLError` was
raised (`urlError` carries its text), or a response arrived with a status
and a body; `body = none` stands for a body `json.loads` rejects
(`json.JSONDecodeError`), `body = some data` for the decoded value. -/
inductive HttpResult where
  | urlError (msg : String)
  | response (status : Nat) (body : Option Json)

/-- `data.get(key)` — defined only on a dict; on any other value the Python
attribute lookup `.get` raises `AttributeError`, modelled as `Except.error`. -/
def jsonGet (data : Json) (key : String) : Except String (Option Json) :=
  match data with
  | Json.obj fields => Except.ok (fields.lookup key)
  | _ => Except.error "AttributeError: the decoded payload is not an object"

/-- `get_random_trump_quote`: classify the outcome, turning every raised
exception into `Except.error` with the text of the `RuntimeError` the
function raises (or of the exception that escapes it; the
unexpected-payload message drops the Python f-string interpolation of the
payload).  `quote.strip()` is `Dungeon.pyStrip` on the character list. -/
def get_random_trump_quote (resp : HttpResult) : Except String String :=
  match resp with
  | HttpResult.urlError e =>
    Except.error ("Impossible de contacter l'API: " ++ e)
  | HttpResult.response status body =>
    if status ≠ 200 then
      Except.error ("Réponse HTTP inattendue: " ++ toString status)
    else
      match body with
      | none => Except.error "Réponse reçue mais JSON invalide."
      | some data =>
        match jsonGet data "message" with
        | Except.error e => Except.error e
        | Except.ok quote =>
          match quote with
          | some (Json.str s) =>
            if s = "" then
              Except.error "Réponse inattendue de l'API."
            else
              Except.ok ⟨Dungeon.pyStrip s.data⟩
          | _ => Except.error "Réponse inattendue de l'API."

/-- `main` of `trump_quote.py`: its console output as one string — the quote
block on success, a single `Erreur:` line when any exception reaches the
`except Exception` handler.  Either way `main` returns normally. -/
def trump_main (resp : HttpResult) : String :=
  match get_random_trump_quote resp with
  | Except.ok quote => "🗨️ Citation aléatoire :\n\n" ++ "“" ++ quote ++ "”"
  | Except.error e => "Erreur: " ++ e

end TrumpQuote

namespace Dungeon

/-! ### Grid access lemmas -/

theorem length_setCell (g : Grid) (x y : Nat) (c : Cell) :
    (setCell g x y c).length = g.length := by
  simp [setCell]

/-- Out-of-range reads return the `Cell.wall` default, so a non-wall read
pins both indices inside the grid. -/
theorem getD_eq_wall_of_le {l : List Cell} {i : Nat} (hi : ¬i < l.length) :
    l.getD i Cell.wall = Cell.wall := by
  rw [List.getD_eq_getElem?_getD, List.getElem?_eq_none (Nat.le_of_not_lt hi)]
  rfl

theorem bounds_of_getCell_ne_wall {g : Grid} {x y : Nat}
    (h : getCell g x y ≠ Cell.wall) :
    y < g.length ∧ x < (g.getD y []).length := by
  by_cases hy : y < g.length
  · by_cases hx : x < (g.getD y []).length
    · exact ⟨hy, hx⟩
    · exact absurd (getD_eq_wall_of_le hx) h
  · refine absurd ?_ h
    show (g.getD y []).getD x Cell.wall = Cell.wall
    have hnil : g.getD y [] = [] := by
      rw [List.getD_eq_getElem?_getD, List.getElem?_eq_none (Nat.le_of_not_lt hy)]
      rfl
    rw [hnil]
    rfl

theorem getCell_setCell_self {g : Grid} {x y : Nat} {c : Cell}
    (hy : y < g.length) (hx : x < (g.getD y []).length) :
    getCell (setCell g x y c) x y = c := by
  unfold getCell setCell
  simp only [List.getD_eq_getElem?_getD, List.getElem?_set_self hy, Option.getD_some]
  rw [List.getElem?_set_self (by simpa using hx)]
  rfl

theorem getCell_setCell_of_ne {g : Grid} {x y p q : Nat} {c : Cell}
    (h : ¬(p = x ∧ q = y)) :
    getCell (setCell g x y c) p q = getCell g p q := by
  unfold getCell setCell
  by_cases hq : y = q
  · subst hq
    have hp : x ≠ p := fun hp => h ⟨hp.symm, rfl⟩
    by_cases hy : y < g.length
    · simp only [List.getD_eq_getElem?_getD, List.getElem?_set_self hy,
        Option.getD_some, List.getElem?_set_ne hp]
    · rw [List.set_eq_of_length_le (Nat.le_of_not_lt hy)]
  · simp only [List.getD_eq_getElem?_getD, List.getElem?_set_ne hq]

/-! ### Counting lemmas -/

theorem count_symbol_nil (s : Cell) : count_symbol [] s = 0 := rfl

theorem count_symbol_cons (row : List Cell) (g : Grid) (s : Cell) :
    count_symbol (row :: g) s = row.count s + count_symbol g s := by
  simp [count_symbol]

/-- Writing a symbol other than `s` never increases the count of `s`. -/
theorem count_set_le {row : List Cell} {x : Nat} {c s : Cell} (hc : c ≠ s) :
    (row.set x c).count s ≤ row.count s := by
  induction row generalizing x with
  | nil => simp
  | cons hd tl ih =>
    cases x with
    | zero => simp [List.count_cons, hc]
    | succ x =>
      simp only [List.set_cons_succ, List.count_cons]
      exact Nat.add_le_add (ih (x := x)) (Nat.le_refl _)

theorem count_symbol_setCell_le {g : Grid} {x y : Nat} {c s : Cell} (hc : c ≠ s) :
    count_symbol (setCell g x y c) s ≤ count_symbol g s := by
  unfold setCell
  induction g generalizing y with
  | nil => simp
  | cons row g ih =>
    cases y with
    | zero =>
      simp only [List.getD_cons_zero, List.set_cons_zero, count_symbol_cons]
      exact Nat.add_le_add (count_set_le hc) (Nat.le_refl _)
    | succ y =>
      simp only [List.getD_cons_succ, List.set_cons_succ, count_symbol_cons]
      exact Nat.add_le_add (Nat.le_refl _) (ih (y := y))

/-- Overwriting a cell that did not hold `s` with a symbol that is not `s`
leaves the count of `s` unchanged. -/
theorem count_set_of_ne {row : List Cell} {x : Nat} {c s : Cell}
    (hold : row.getD x Cell.wall ≠ s) (hc : c ≠ s) :
    (row.set x c).count s = row.count s := by
  induction row generalizing x with
  | nil => simp
  | cons hd tl ih =>
    cases x with
    | zero =>
      simp only [List.getD_cons_zero] at hold
      simp [List.count_cons, hc, hold]
    | succ x =>
      simp only [List.getD_cons_succ] at hold
      simp only [List.set_cons_succ, List.count_cons, ih hold]

theorem count_symbol_setCell_of_ne {g : Grid} {x y : Nat} {c s : Cell}
    (hold : getCell g x y ≠ s) (hc : c ≠ s) :
    count_symbol (setCell g x y c) s = count_symbol g s := by
  unfold getCell at hold
  unfold setCell
  induction g generalizing y with
  | nil => simp
  | cons row g ih =>
    cases y with
    | zero =>
      simp only [List.getD_cons_zero] at hold ⊢
      simp only [List.set_cons_zero, count_symbol_cons, count_set_of_ne hold hc]
    | succ y =>
      simp only [List.getD_cons_succ] at hold ⊢
      simp only [List.set_cons_succ, count_symbol_cons, ih hold]

/-- Writing `s` over a floor cell adds one to the count of `s`
(`s` itself is not floor). -/
theorem count_set_floor_add_one {row : List Cell} {x : Nat} {s : Cell}
    (hold : row.getD x Cell.wall = Cell.floor) (hs : s ≠ Cell.floor) :
    (row.set x s).count s = row.count s + 1 := by
  induction row generalizing x with
  | nil => simp at hold
  | cons hd tl ih =>
    cases x with
    | zero =>
      simp only [List.getD_cons_zero] at hold
      subst hold
      simp [List.count_cons, hs]
    | succ x =>
      simp only [List.getD_cons_succ] at hold
      simp only [List.set_cons_succ, List.count_cons, ih hold]
      omega

theorem count_symbol_setCell_floor_add_one {g : Grid} {x y : Nat} {s : Cell}
    (hold : getCell g x y = Cell.floor) (hs : s ≠ Cell.floor) :
    count_symbol (setCell g x y s) s = count_symbol g s + 1 := by
  unfold getCell at hold
  unfold setCell
  induction g generalizing y with
  | nil => simp at hold
  | cons row g ih =>
    cases y with
    | zero =>
      simp only [List.getD_cons_zero] at hold ⊢
      simp only [List.set_cons_zero, count_symbol_cons,
        count_set_floor_add_one hold hs]
      omega
    | succ y =>
      simp only [List.getD_cons_succ] at hold ⊢
      simp only [List.set_cons_succ, count_symbol_cons, ih hold]
      omega

theorem preservesWalls_refl (g : Grid) : preservesWalls g g := fun _ _ h => h

theorem preservesWalls_trans {g1 g2 g3 : Grid}
    (h12 : preservesWalls g1 g2) (h23 : preservesWalls g2 g3) :
    preservesWalls g1 g3 :=
  fun p q h => h23 p q (h12 p q h)

/-- Overwriting a non-wall cell preserves every wall. -/
theorem preservesWalls_setCell {g : Grid} {x y : Nat} {c : Cell}
    (hold : getCell g x y ≠ Cell.wall) :
    preservesWalls g (setCell g x y c) := by
  intro p q hw
  by_cases hpq : p = x ∧ q = y
  · obtain ⟨rfl, rfl⟩ := hpq
    exact absurd hw hold
  · rw [getCell_setCell_of_ne hpq]
    exact hw

/-! ### The placement loops -/

/-- `place_random` never touches a forbidden cell. -/
theorem place_random_go_getCell_forbidden (w h : Nat) (symbol : Cell)
    (forbidden : List (Nat × Nat)) (fuel rem : Nat) (g : Grid) (r : Rng)
    {p q : Nat} (hmem : (p, q) ∈ forbidden) :
    getCell (place_random_go w h symbol forbidden fuel rem g r).1 p q =
      getCell g p q := by
  induction fuel generalizing rem g r with
  | zero => cases rem <;> rfl
  | succ fuel ih =>
    cases rem with
    | zero => rfl
    | succ rem =>
      rw [place_random_go]
      simp only [randrange, nextNat]
      split
      · exact ih (rem + 1) g _
      · split
        · exact ih (rem + 1) g _
        · rename_i hforb hfloor
          rw [ih rem _ _]
          refine getCell_setCell_of_ne fun hpq => ?_
          obtain ⟨rfl, rfl⟩ := hpq
          exact hforb hmem

/-- `place_random` writes its symbol only on floor cells, so every wall
survives it. -/
theorem place_random_go_preservesWalls (w h : Nat) (symbol : Cell)
    (forbidden : List (Nat × Nat)) (fuel rem : Nat) (g : Grid) (r : Rng) :
    preservesWalls g (place_random_go w h symbol forbidden fuel rem g r).1 := by
  induction fuel generalizing rem g r with
  | zero => cases rem <;> exact preservesWalls_refl _
  | succ fuel ih =>
    cases rem with
    | zero => exact preservesWalls_refl _
    | succ rem =>
      rw [place_random_go]
      simp only [randrange, nextNat]
      split
      · exact ih (rem + 1) g _
      · split
        · exact ih (rem + 1) g _
        · rename_i hforb hfloor
          rw [Decidable.not_not] at hfloor
          exact preservesWalls_trans
            (preservesWalls_setCell (by rw [hfloor]; decide)) (ih rem _ _)

/-- `place_random` leaves the count of any symbol it does not place (floor
included) unchanged. -/
theorem place_random_go_count (w h : Nat) {symbol : Cell}
    (forbidden : List (Nat × Nat)) (fuel rem : Nat) (g : Grid) (r : Rng)
    {s : Cell} (hs : symbol ≠ s) (hfs : Cell.floor ≠ s) :
    count_symbol (place_random_go w h symbol forbidden fuel rem g r).1 s =
      count_symbol g s := by
  induction fuel generalizing rem g r with
  | zero => cases rem <;> rfl
  | succ fuel ih =>
    cases rem with
    | zero => rfl
    | succ rem =>
      rw [place_random_go]
      simp only [randrange, nextNat]
      split
      · exact ih (rem + 1) g _
      · split
        · exact ih (rem + 1) g _
        · rename_i hforb hfloor
          rw [Decidable.not_not] at hfloor
          rw [ih rem _ _, count_symbol_setCell_of_ne (by rw [hfloor]; exact hfs) hs]

/-- What the `spawn_exit` retry loop can do: give up with the grid intact, or
write one `E` on a floor cell away from the player. -/
theorem spawn_exit_go_spec (px py w h : Nat) (fuel : Nat) (g : Grid) (r : Rng) :
    (∃ r', spawn_exit_go px py w h fuel g r = (g, false, r')) ∨
    (∃ x y r', ¬(x = px ∧ y = py) ∧ getCell g x y = Cell.floor ∧
      spawn_exit_go px py w h fuel g r = (setCell g x y Cell.exitDoor, true, r')) := by
  induction fuel generalizing r with
  | zero => exact Or.inl ⟨r, rfl⟩
  | succ fuel ih =>
    rw [spawn_exit_go]
    simp only [randrangeI, nextNat]
    split
    · exact ih _
    · split
      · rename_i hne hfloor
        exact Or.inr ⟨_, _, _, fun hpq => hne (by rw [hpq.1, hpq.2]), hfloor, rfl⟩
      · exact ih _

/-- What the `maybe_spawn` retry loop can do: give up with the world intact,
or write its symbol on one floor cell away from the player and append the
flavour text. -/
theorem maybe_spawn_go_spec (px py w h : Nat) (symbol : Cell) (fuel : Nat)
    (world : World) (r : Rng) :
    (∃ r', maybe_spawn_go px py w h symbol fuel world r = (world, r')) ∨
    (∃ x y r', ¬(x = px ∧ y = py) ∧ getCell world.grid x y = Cell.floor ∧
      maybe_spawn_go px py w h symbol fuel world r =
        ({ world with
            grid := setCell world.grid x y symbol,
            message := world.message ++ spawn_flavor symbol }, r')) := by
  induction fuel generalizing r with
  | zero => exact Or.inl ⟨r, rfl⟩
  | succ fuel ih =>
    rw [maybe_spawn_go]
    simp only [randrangeI, nextNat]
    split
    · exact ih _
    · split
      · rename_i hne hfloor
        exact Or.inr ⟨_, _, _, fun hpq => hne (by rw [hpq.1, hpq.2]), hfloor, rfl⟩
      · exact ih _

/-! ### spawn_exit and maybe_spawn, one level up -/

theorem spawn_exit_cases (world : World) (r : Rng) :
    (∃ r', spawn_exit world r = ({ world with message := msg_exit_fail }, r')) ∨
    (∃ x y r', ¬(x = world.player_pos.1 ∧ y = world.player_pos.2) ∧
      getCell world.grid x y = Cell.floor ∧
      spawn_exit world r =
        ({ world with
            grid := setCell world.grid x y Cell.exitDoor,
            exit_spawned := true,
            message := msg_exit_spawned }, r')) := by
  rcases spawn_exit_go_spec world.player_pos.1 world.player_pos.2
      (world.grid.getD 0 []).length world.grid.length 200 world.grid r with
    ⟨r', heq⟩ | ⟨x, y, r', hne, hfloor, heq⟩
  · exact Or.inl ⟨r', by simp only [spawn_exit, heq]⟩
  · exact Or.inr ⟨x, y, r', hne, hfloor, by simp only [spawn_exit, heq]⟩

theorem maybe_spawn_cases (world : World) (r : Rng) :
    (∃ r', maybe_spawn world r = (world, r')) ∨
    (∃ symbol x y r', (symbol = Cell.treasure ∨ symbol = Cell.trap) ∧
      world.exit_spawned = false ∧
      ¬(x = world.player_pos.1 ∧ y = world.player_pos.2) ∧
      getCell world.grid x y = Cell.floor ∧
      maybe_spawn world r =
        ({ world with
            grid := setCell world.grid x y symbol,
            message := world.message ++ spawn_flavor symbol }, r')) := by
  by_cases hsp : world.exit_spawned
  · exact Or.inl ⟨r, by simp [maybe_spawn, hsp]⟩
  · rw [Bool.not_eq_true] at hsp
    have hbody : maybe_spawn world r =
        (if (r.floats.headD 1 : ℚ) < 0.12 then
          maybe_spawn_go world.player_pos.1 world.player_pos.2
            (world.grid.getD 0 []).length world.grid.length Cell.treasure 60 world
            { r with floats := r.floats.tail }
        else if (r.floats.headD 1 : ℚ) < 0.20 then
          maybe_spawn_go world.player_pos.1 world.player_pos.2
            (world.grid.getD 0 []).length world.grid.length Cell.trap 60 world
            { r with floats := r.floats.tail }
        else (world, { r with floats := r.floats.tail })) := by
      rw [maybe_spawn]
      simp only [hsp, Bool.false_eq_true, if_false, randFloat]
    rw [hbody]
    by_cases h1 : (r.floats.headD 1 : ℚ) < 0.12
    · rw [if_pos h1]
      rcases maybe_spawn_go_spec world.player_pos.1 world.player_pos.2
          (world.grid.getD 0 []).length world.grid.length Cell.treasure 60 world
          { r with floats := r.floats.tail } with
        ⟨r', heq⟩ | ⟨x, y, r', hne, hfloor, heq⟩
      · exact Or.inl ⟨r', heq⟩
      · exact Or.inr ⟨Cell.treasure, x, y, r', Or.inl rfl, hsp, hne, hfloor, heq⟩
    · rw [if_neg h1]
      by_cases h2 : (r.floats.headD 1 : ℚ) < 0.20
      · rw [if_pos h2]
        rcases maybe_spawn_go_spec world.player_pos.1 world.player_pos.2
            (world.grid.getD 0 []).length world.grid.length Cell.trap 60 world
            { r with floats := r.floats.tail } with
          ⟨r', heq⟩ | ⟨x, y, r', hne, hfloor, heq⟩
        · exact Or.inl ⟨r', heq⟩
        · exact Or.inr ⟨Cell.trap, x, y, r', Or.inr rfl, hsp, hne, hfloor, heq⟩
      · rw [if_neg h2]
        exact Or.inl ⟨_, rfl⟩

/-- `maybe_spawn` only ever adds a treasure or a trap on a floor cell away
from the player: score, hp, turn, position, flags and the player's own cell
are untouched. -/
theorem maybe_spawn_frame (world : World) (r : Rng) :
    (maybe_spawn world r).1.score = world.score ∧
    (maybe_spawn world r).1.hp = world.hp ∧
    (maybe_spawn world r).1.turn = world.turn ∧
    (maybe_spawn world r).1.player_pos = world.player_pos ∧
    (maybe_spawn world r).1.won = world.won ∧
    (maybe_spawn world r).1.exit_spawned = world.exit_spawned ∧
    getCell (maybe_spawn world r).1.grid world.player_pos.1 world.player_pos.2 =
      getCell world.grid world.player_pos.1 world.player_pos.2 := by
  rcases maybe_spawn_cases world r with ⟨r', heq⟩ | ⟨s, x, y, r', _, _, hne, _, heq⟩
  · rw [heq]
    exact ⟨rfl, rfl, rfl, rfl, rfl, rfl, rfl⟩
  · rw [heq]
    refine ⟨rfl, rfl, rfl, rfl, rfl, rfl, ?_⟩
    exact getCell_setCell_of_ne fun hpq => hne ⟨hpq.1.symm, hpq.2.symm⟩

/-- `spawn_exit` only ever adds the exit on a floor cell away from the
player: score, hp, turn, position, won and the player's own cell are
untouched, and `exit_spawned` can only turn on. -/
theorem spawn_exit_frame (world : World) (r : Rng) :
    (spawn_exit world r).1.score = world.score ∧
    (spawn_exit world r).1.hp = world.hp ∧
    (spawn_exit world r).1.turn = world.turn ∧
    (spawn_exit world r).1.player_pos = world.player_pos ∧
    (spawn_exit world r).1.won = world.won ∧
    (world.exit_spawned = true → (spawn_exit world r).1.exit_spawned = true) ∧
    getCell (spawn_exit world r).1.grid world.player_pos.1 world.player_pos.2 =
      getCell world.grid world.player_pos.1 world.player_pos.2 := by
  rcases spawn_exit_cases world r with ⟨r', heq⟩ | ⟨x, y, r', hne, _, heq⟩
  · rw [heq]
    exact ⟨rfl, rfl, rfl, rfl, rfl, fun h => h, rfl⟩
  · rw [heq]
    refine ⟨rfl, rfl, rfl, rfl, rfl, fun _ => rfl, ?_⟩
    exact getCell_setCell_of_ne fun hpq => hne ⟨hpq.1.symm, hpq.2.symm⟩

/-- The two post-move steps keep score, hp, turn, position, won and the
player's own cell; `exit_spawned` can only turn on. -/
theorem post_move_frame (world : World) (r : Rng) :
    (post_move world r).1.score = world.score ∧
    (post_move world r).1.hp = world.hp ∧
    (post_move world r).1.turn = world.turn ∧
    (post_move world r).1.player_pos = world.player_pos ∧
    (post_move world r).1.won = world.won ∧
    (world.exit_spawned = true → (post_move world r).1.exit_spawned = true) ∧
    getCell (post_move world r).1.grid world.player_pos.1 world.player_pos.2 =
      getCell world.grid world.player_pos.1 world.player_pos.2 := by
  rw [post_move]
  by_cases hcond : world.exit_spawned = false ∧ count_symbol world.grid Cell.treasure = 0
  · rw [if_pos hcond]
    obtain ⟨w1, r1, hsw⟩ : ∃ w1 r1, spawn_exit world r = (w1, r1) := ⟨_, _, rfl⟩
    simp only [hsw]
    have hse := spawn_exit_frame world r
    simp only [hsw] at hse
    have hms := maybe_spawn_frame w1 r1
    rw [hse.2.2.2.1] at hms
    refine ⟨hms.1.trans hse.1, hms.2.1.trans hse.2.1, hms.2.2.1.trans hse.2.2.1,
      hms.2.2.2.1, hms.2.2.2.2.1.trans hse.2.2.2.2.1,
      fun h => hms.2.2.2.2.2.1.trans (hse.2.2.2.2.2.1 h),
      hms.2.2.2.2.2.2.trans hse.2.2.2.2.2.2⟩
  · rw [if_neg hcond]
    have hms := maybe_spawn_frame world r
    exact ⟨hms.1, hms.2.1, hms.2.2.1, hms.2.2.2.1, hms.2.2.2.2.1,
      fun h => hms.2.2.2.2.2.1.trans h, hms.2.2.2.2.2.2⟩

/-! ### The exit invariant -/

theorem spawn_exit_exit_inv {world : World} (r : Rng)
    (hsp : world.exit_spawned = false) (hinv : exit_inv world) :
    exit_inv (spawn_exit world r).1 := by
  rcases spawn_exit_cases world r with ⟨r', heq⟩ | ⟨x, y, r', hne, hfloor, heq⟩
  · rw [heq]
    exact hinv
  · rw [heq]
    unfold exit_inv at hinv ⊢
    rw [hsp] at hinv
    simp only [if_false, Bool.false_eq_true] at hinv
    simp only [if_true]
    rw [count_symbol_setCell_floor_add_one hfloor (by decide), hinv]

theorem maybe_spawn_exit_inv {world : World} (r : Rng) (hinv : exit_inv world) :
    exit_inv (maybe_spawn world r).1 := by
  rcases maybe_spawn_cases world r with ⟨r', heq⟩ | ⟨s, x, y, r', hsym, hsp, hne, hfloor, heq⟩
  · rw [heq]
    exact hinv
  · rw [heq]
    unfold exit_inv at hinv ⊢
    rw [count_symbol_setCell_of_ne (by rw [hfloor]; decide)
      (by rcases hsym with rfl | rfl <;> decide)]
    exact hinv

theorem post_move_exit_inv {world : World} (r : Rng) (hinv : exit_inv world) :
    exit_inv (post_move world r).1 := by
  rw [post_move]
  by_cases hcond : world.exit_spawned = false ∧ count_symbol world.grid Cell.treasure = 0
  · rw [if_pos hcond]
    have hinv2 := spawn_exit_exit_inv r hcond.1 hinv
    rcases spawn_exit_cases world r with ⟨r', heq⟩ | ⟨x, y, r', hne, hfloor, heq⟩ <;>
    · simp only [heq] at hinv2 ⊢
      exact maybe_spawn_exit_inv r' hinv2
  · rw [if_neg hcond]
    exact maybe_spawn_exit_inv r hinv

/-- When the post-move steps flip `exit_spawned` on, no treasure is left on
the final grid (the exit only spawns at treasure count zero, and
`maybe_spawn` is disabled as soon as the exit exists). -/
theorem post_move_flip_no_treasure {world : World} (r : Rng)
    (hsp : world.exit_spawned = false)
    (hflip : (post_move world r).1.exit_spawned = true) :
    count_symbol (post_move world r).1.grid Cell.treasure = 0 := by
  rw [post_move] at hflip ⊢
  by_cases hcond : world.exit_spawned = false ∧ count_symbol world.grid Cell.treasure = 0
  · rw [if_pos hcond] at hflip ⊢
    rcases spawn_exit_cases world r with ⟨r', heq⟩ | ⟨x, y, r', hne, hfloor, heq⟩
    · simp only [heq] at hflip ⊢
      have hms := maybe_spawn_frame { world with message := msg_exit_fail } r'
      have htrue : world.exit_spawned = true := hms.2.2.2.2.2.1.symm.trans hflip
      rw [hsp] at htrue
      exact absurd htrue (by decide)
    · simp only [heq] at hflip ⊢
      rcases maybe_spawn_cases
          { world with
              grid := setCell world.grid x y Cell.exitDoor,
              exit_spawned := true,
              message := msg_exit_spawned } r' with
        ⟨r'', heq2⟩ | ⟨s, x2, y2, r'', hsym, hsp2, hne2, hfloor2, heq2⟩
      · rw [heq2]
        exact (count_symbol_setCell_of_ne (by rw [hfloor]; decide) (by decide)).trans
          hcond.2
      · simp at hsp2
  · rw [if_neg hcond] at hflip ⊢
    have hms := maybe_spawn_frame world r
    have htrue : world.exit_spawned = true := hms.2.2.2.2.2.1.symm.trans hflip
    rw [hsp] at htrue
    exact absurd htrue (by decide)

/-! ### Rectangular grids, make_grid and the border loops -/

theorem rect_getD {g : Grid} {w h : Nat} (rect : rectGrid g w h) {y : Nat}
    (hy : y < g.length) : (g.getD y []).length = w := by
  rw [List.getD_eq_getElem?_getD, List.getElem?_eq_getElem hy, Option.getD_some]
  exact rect.2 _ (List.getElem_mem hy)

theorem rectGrid_setCell {g : Grid} {w h : Nat} (rect : rectGrid g w h)
    (x y : Nat) (c : Cell) : rectGrid (setCell g x y c) w h := by
  refine ⟨by simpa [setCell] using rect.1, ?_⟩
  intro row hrow
  unfold setCell at hrow
  obtain ⟨i, hi, rfl⟩ := List.mem_iff_getElem.1 hrow
  rw [List.getElem_set]
  split
  · rename_i hyi
    have hylen : y < g.length := by
      have := hi
      simp only [List.length_set] at this
      omega
    rw [List.length_set]
    exact rect_getD rect hylen
  · exact rect.2 _ (List.getElem_mem _)

theorem rectGrid_make_grid (w h : Nat) : rectGrid (make_grid w h) w h := by
  refine ⟨by simp [make_grid], ?_⟩
  intro row hrow
  rw [List.eq_of_mem_replicate hrow]
  simp

theorem getCell_make_grid {w h x y : Nat} (hx : x < w) (hy : y < h) :
    getCell (make_grid w h) x y = Cell.floor := by
  unfold getCell make_grid
  simp [List.getD_eq_getElem?_getD, List.getElem?_replicate_of_lt hy,
    List.getElem?_replicate_of_lt hx]

theorem count_symbol_make_grid (w h : Nat) {s : Cell} (hs : s ≠ Cell.floor) :
    count_symbol (make_grid w h) s = 0 := by
  unfold count_symbol make_grid
  induction h with
  | zero => rfl
  | succ h ih =>
    rw [List.replicate_succ, List.map_cons, List.sum_cons, ih,
      List.count_replicate]
    simp [Ne.symm hs]

/-- Generic bound: a fold of count-nonincreasing steps cannot increase a
count. -/
theorem count_symbol_foldl_le {α : Type} {s : Cell} (step : Grid → α → Grid)
    (hstep : ∀ g a, count_symbol (step g a) s ≤ count_symbol g s) :
    ∀ (l : List α) (g : Grid), count_symbol (l.foldl step g) s ≤ count_symbol g s := by
  intro l
  induction l with
  | nil => exact fun g => Nat.le_refl _
  | cons a l ih =>
    intro g
    exact Nat.le_trans (ih (step g a)) (hstep g a)

theorem count_symbol_set_borders_le (g : Grid) (width height : Nat) {s : Cell}
    (hs : Cell.wall ≠ s) :
    count_symbol (set_borders g width height) s ≤ count_symbol g s := by
  rw [set_borders]
  refine Nat.le_trans
    (count_symbol_foldl_le _ (fun g y => ?_) (List.range height) _)
    (count_symbol_foldl_le _ (fun g x => ?_) (List.range width) g)
  · exact Nat.le_trans (count_symbol_setCell_le hs) (count_symbol_setCell_le hs)
  · exact Nat.le_trans (count_symbol_setCell_le hs) (count_symbol_setCell_le hs)

/-- The first border loop (`grid[0][x]` and `grid[height-1][x]` over a list of
columns): shape kept, listed columns walled on rows 0 and height-1, all other
cells untouched. -/
theorem rows_fold_spec (width height : Nat) (hh : 1 ≤ height) :
    ∀ (xs : List Nat), (∀ x ∈ xs, x < width) → ∀ (g : Grid), rectGrid g width height →
    rectGrid (xs.foldl
        (fun g x => setCell (setCell g x 0 Cell.wall) x (height - 1) Cell.wall) g)
      width height ∧
    (∀ p q, p ∈ xs → (q = 0 ∨ q = height - 1) →
      getCell (xs.foldl
        (fun g x => setCell (setCell g x 0 Cell.wall) x (height - 1) Cell.wall) g) p q =
        Cell.wall) ∧
    (∀ p q, (p ∉ xs ∨ (q ≠ 0 ∧ q ≠ height - 1)) →
      getCell (xs.foldl
        (fun g x => setCell (setCell g x 0 Cell.wall) x (height - 1) Cell.wall) g) p q =
        getCell g p q) := by
  intro xs
  induction xs with
  | nil => exact fun _ g rect => ⟨rect, by simp, fun p q _ => rfl⟩
  | cons x xs ih =>
    intro hxs g rect
    have hx : x < width := hxs x (List.mem_cons_self x xs)
    have rect1 : rectGrid (setCell (setCell g x 0 Cell.wall) x (height - 1) Cell.wall)
        width height :=
      rectGrid_setCell (rectGrid_setCell rect x 0 Cell.wall) x (height - 1) Cell.wall
    obtain ⟨rectF, hset, huntouched⟩ :=
      ih (fun z hz => hxs z (List.mem_cons_of_mem x hz)) _ rect1
    rw [List.foldl_cons]
    have hstep : ∀ q, (q = 0 ∨ q = height - 1) →
        getCell (setCell (setCell g x 0 Cell.wall) x (height - 1) Cell.wall) x q =
          Cell.wall := by
      intro q hq
      have h0len : (0 : Nat) < g.length := by rw [rect.1]; omega
      have h0row : x < (g.getD 0 []).length := by rw [rect_getD rect h0len]; exact hx
      have hg1len : height - 1 < (setCell g x 0 Cell.wall).length := by
        rw [length_setCell, rect.1]; omega
      have hg1row : x < ((setCell g x 0 Cell.wall).getD (height - 1) []).length := by
        rw [rect_getD (rectGrid_setCell rect x 0 Cell.wall) hg1len]; exact hx
      rcases hq with rfl | rfl
      · by_cases hq0 : height - 1 = 0
        · have heq : getCell (setCell (setCell g x 0 Cell.wall) x (height - 1) Cell.wall) x 0 =
              getCell (setCell (setCell g x 0 Cell.wall) x (height - 1) Cell.wall) x
                (height - 1) := by
            rw [hq0]
          rw [heq]
          exact getCell_setCell_self hg1len hg1row
        · rw [getCell_setCell_of_ne fun hpq => hq0 hpq.2.symm]
          exact getCell_setCell_self h0len h0row
      · exact getCell_setCell_self hg1len hg1row
    refine ⟨rectF, ?_, ?_⟩
    · intro p q hp hq
      by_cases hpxs : p ∈ xs
      · exact hset p q hpxs hq
      · rcases List.mem_cons.1 hp with rfl | hpin
        · rw [huntouched p q (Or.inl hpxs)]
          exact hstep q hq
        · exact absurd hpin hpxs
    · intro p q hpq
      rcases hpq with hp | hq
      · have hpx : p ≠ x := fun hcontra => hp (hcontra ▸ List.mem_cons_self x xs)
        have hpxs : p ∉ xs := fun hcontra => hp (List.mem_cons_of_mem x hcontra)
        rw [huntouched p q (Or.inl hpxs),
          getCell_setCell_of_ne fun hpq => hpx hpq.1,
          getCell_setCell_of_ne fun hpq => hpx hpq.1]
      · rw [huntouched p q (Or.inr hq),
          getCell_setCell_of_ne fun hpq => hq.2 hpq.2,
          getCell_setCell_of_ne fun hpq => hq.1 hpq.2]

/-- The second border loop (`grid[y][0]` and `grid[y][width-1]` over a list of
rows): shape kept, listed rows walled on columns 0 and width-1, all other
cells untouched. -/
theorem cols_fold_spec (width height : Nat) (hw : 1 ≤ width) :
    ∀ (ys : List Nat), (∀ y ∈ ys, y < height) → ∀ (g : Grid), rectGrid g width height →
    rectGrid (ys.foldl
        (fun g y => setCell (setCell g 0 y Cell.wall) (width - 1) y Cell.wall) g)
      width height ∧
    (∀ p q, q ∈ ys → (p = 0 ∨ p = width - 1) →
      getCell (ys.foldl
        (fun g y => setCell (setCell g 0 y Cell.wall) (width - 1) y Cell.wall) g) p q =
        Cell.wall) ∧
    (∀ p q, (q ∉ ys ∨ (p ≠ 0 ∧ p ≠ width - 1)) →
      getCell (ys.foldl
        (fun g y => setCell (setCell g 0 y Cell.wall) (width - 1) y Cell.wall) g) p q =
        getCell g p q) := by
  intro ys
  induction ys with
  | nil => exact fun _ g rect => ⟨rect, by simp, fun p q _ => rfl⟩
  | cons y ys ih =>
    intro hys g rect
    have hy : y < height := hys y (List.mem_cons_self y ys)
    have rect1 : rectGrid (setCell (setCell g 0 y Cell.wall) (width - 1) y Cell.wall)
        width height :=
      rectGrid_setCell (rectGrid_setCell rect 0 y Cell.wall) (width - 1) y Cell.wall
    obtain ⟨rectF, hset, huntouched⟩ :=
      ih (fun z hz => hys z (List.mem_cons_of_mem y hz)) _ rect1
    rw [List.foldl_cons]
    have hylen : y < g.length := by rw [rect.1]; exact hy
    have hstep : ∀ p, (p = 0 ∨ p = width - 1) →
        getCell (setCell (setCell g 0 y Cell.wall) (width - 1) y Cell.wall) p y =
          Cell.wall := by
      intro p hp
      have h0row : (0 : Nat) < (g.getD y []).length := by
        rw [rect_getD rect hylen]; omega
      have hg1len : y < (setCell g 0 y Cell.wall).length := by
        rw [length_setCell]; exact hylen
      have hg1row : width - 1 < ((setCell g 0 y Cell.wall).getD y []).length := by
        rw [rect_getD (rectGrid_setCell rect 0 y Cell.wall) hg1len]; omega
      rcases hp with rfl | rfl
      · by_cases hp0 : width - 1 = 0
        · have heq : getCell (setCell (setCell g 0 y Cell.wall) (width - 1) y Cell.wall) 0 y =
              getCell (setCell (setCell g 0 y Cell.wall) (width - 1) y Cell.wall)
                (width - 1) y := by
            rw [hp0]
          rw [heq]
          exact getCell_setCell_self hg1len hg1row
        · rw [getCell_setCell_of_ne fun hpq => hp0 hpq.1.symm]
          exact getCell_setCell_self hylen h0row
      · exact getCell_setCell_self hg1len hg1row
    refine ⟨rectF, ?_, ?_⟩
    · intro p q hq hp
      by_cases hqys : q ∈ ys
      · exact hset p q hqys hp
      · rcases List.mem_cons.1 hq with rfl | hqin
        · rw [huntouched p q (Or.inl hqys)]
          exact hstep p hp
        · exact absurd hqin hqys
    · intro p q hpq
      rcases hpq with hq | hp
      · have hqy : q ≠ y := fun hcontra => hq (hcontra ▸ List.mem_cons_self y ys)
        have hqys : q ∉ ys := fun hcontra => hq (List.mem_cons_of_mem y hcontra)
        rw [huntouched p q (Or.inl hqys),
          getCell_setCell_of_ne fun hpq => hqy hpq.2,
          getCell_setCell_of_ne fun hpq => hqy hpq.2]
      · rw [huntouched p q (Or.inr hp),
          getCell_setCell_of_ne fun hpq => hp.2 hpq.1,
          getCell_setCell_of_ne fun hpq => hp.1 hpq.1]

theorem set_borders_spec (width height : Nat) (hw : 1 ≤ width) (hh : 1 ≤ height)
    (g : Grid) (rect : rectGrid g width height) :
    rectGrid (set_borders g width height) width height ∧
    borderWall width height (set_borders g width height) ∧
    (∀ p q, p ≠ 0 → p ≠ width - 1 → q ≠ 0 → q ≠ height - 1 →
      getCell (set_borders g width height) p q = getCell g p q) := by
  rw [set_borders]
  obtain ⟨rect1, hset1, hun1⟩ :=
    rows_fold_spec width height hh (List.range width)
      (fun x hx => List.mem_range.1 hx) g rect
  obtain ⟨rect2, hset2, hun2⟩ :=
    cols_fold_spec width height hw (List.range height)
      (fun y hy => List.mem_range.1 hy) _ rect1
  refine ⟨rect2, ?_, ?_⟩
  · intro p hp q hq hborder
    by_cases hcol : p = 0 ∨ p = width - 1
    · exact hset2 p q (List.mem_range.2 hq) hcol
    · push_neg at hcol
      have hrow : q = 0 ∨ q = height - 1 := by tauto
      rw [hun2 p q (Or.inr hcol)]
      exact hset1 p q (List.mem_range.2 hp) hrow
  · intro p q hp0 hpw hq0 hqh
    rw [hun2 p q (Or.inr ⟨hp0, hpw⟩), hun1 p q (Or.inr ⟨hq0, hqh⟩)]

/-! ### build_world -/

theorem place_random_preservesWalls (g : Grid) (symbol : Cell) (count : Nat)
    (forbidden : List (Nat × Nat)) (r : Rng) :
    preservesWalls g (place_random g symbol count forbidden r).1 :=
  place_random_go_preservesWalls _ _ _ _ _ _ _ _

theorem place_random_count {symbol : Cell} (g : Grid) (count : Nat)
    (forbidden : List (Nat × Nat)) (r : Rng) {s : Cell}
    (hs : symbol ≠ s) (hfs : Cell.floor ≠ s) :
    count_symbol (place_random g symbol count forbidden r).1 s = count_symbol g s :=
  place_random_go_count _ _ _ _ _ _ _ hs hfs

theorem place_random_getCell_forbidden (g : Grid) (symbol : Cell) (count : Nat)
    (forbidden : List (Nat × Nat)) (r : Rng) {p q : Nat}
    (hmem : (p, q) ∈ forbidden) :
    getCell (place_random g symbol count forbidden r).1 p q = getCell g p q :=
  place_random_go_getCell_forbidden _ _ _ _ _ _ _ _ hmem

theorem borderWall_of_preservesWalls {width height : Nat} {g g' : Grid}
    (hb : borderWall width height g) (hp : preservesWalls g g') :
    borderWall width height g' :=
  fun p hpw q hq hbord => hp p q (hb p hpw q hq hbord)

/-- The fields `build_world` fills in: centre start, score 0, hp 5, turn 0,
no exit yet, not won, welcome message. -/
theorem build_world_fields (width height : Nat) (r : Rng) :
    (build_world width height r).1.player_pos = (width / 2, height / 2) ∧
    (build_world width height r).1.score = 0 ∧
    (build_world width height r).1.hp = 5 ∧
    (build_world width height r).1.turn = 0 ∧
    (build_world width height r).1.exit_spawned = false ∧
    (build_world width height r).1.won = false ∧
    (build_world width height r).1.message = msg_welcome :=
  ⟨rfl, rfl, rfl, rfl, rfl, rfl, rfl⟩

/-- The grid `build_world` produces: the whole border ring is wall, no exit
cell exists, and (for maps at least 3 wide and 3 tall) the centre cell where
the player starts is floor. -/
theorem build_world_grid_facts (width height : Nat) (r : Rng)
    (hw : 1 ≤ width) (hh : 1 ≤ height) :
    borderWall width height (build_world width height r).1.grid ∧
    count_symbol (build_world width height r).1.grid Cell.exitDoor = 0 ∧
    (3 ≤ width → 3 ≤ height →
      getCell (build_world width height r).1.grid (width / 2) (height / 2) =
        Cell.floor) := by
  have hsb := set_borders_spec width height hw hh (make_grid width height)
    (rectGrid_make_grid width height)
  obtain ⟨g1, r1, h1⟩ : ∃ g1 r1,
      place_random (set_borders (make_grid width height) width height) Cell.wall
        (max 6 ((width * height) / 18))
        (border_forbidden width height (width / 2) (height / 2)) r = (g1, r1) :=
    ⟨_, _, rfl⟩
  obtain ⟨g2, r2, h2⟩ : ∃ g2 r2,
      place_random g1 Cell.treasure (max 4 ((width * height) / 30))
        (border_forbidden width height (width / 2) (height / 2)) r1 = (g2, r2) :=
    ⟨_, _, rfl⟩
  obtain ⟨g3, r3, h3⟩ : ∃ g3 r3,
      place_random g2 Cell.trap (max 4 ((width * height) / 35))
        (border_forbidden width height (width / 2) (height / 2)) r2 = (g3, r3) :=
    ⟨_, _, rfl⟩
  obtain ⟨g4, r4, h4⟩ : ∃ g4 r4,
      place_random g3 Cell.heal 1
        (border_forbidden width height (width / 2) (height / 2)) r3 = (g4, r4) :=
    ⟨_, _, rfl⟩
  have hgrid : (build_world width height r).1.grid = g4 := by
    simp only [build_world, h1, h2, h3, h4]
  have f1 : (place_random (set_borders (make_grid width height) width height) Cell.wall
      (max 6 ((width * height) / 18))
      (border_forbidden width height (width / 2) (height / 2)) r).1 = g1 := by rw [h1]
  have f2 : (place_random g1 Cell.treasure (max 4 ((width * height) / 30))
      (border_forbidden width height (width / 2) (height / 2)) r1).1 = g2 := by rw [h2]
  have f3 : (place_random g2 Cell.trap (max 4 ((width * height) / 35))
      (border_forbidden width height (width / 2) (height / 2)) r2).1 = g3 := by rw [h3]
  have f4 : (place_random g3 Cell.heal 1
      (border_forbidden width height (width / 2) (height / 2)) r3).1 = g4 := by rw [h4]
  rw [hgrid]
  refine ⟨?_, ?_, ?_⟩
  · refine borderWall_of_preservesWalls (borderWall_of_preservesWalls
      (borderWall_of_preservesWalls (borderWall_of_preservesWalls hsb.2.1
        (f1 ▸ place_random_preservesWalls _ _ _ _ _))
        (f2 ▸ place_random_preservesWalls _ _ _ _ _))
      (f3 ▸ place_random_preservesWalls _ _ _ _ _))
      (f4 ▸ place_random_preservesWalls _ _ _ _ _)
  · have c0 : count_symbol (make_grid width height) Cell.exitDoor = 0 :=
      count_symbol_make_grid width height (by decide)
    have cb : count_symbol (set_borders (make_grid width height) width height)
        Cell.exitDoor = 0 :=
      Nat.le_zero.1 (c0 ▸ count_symbol_set_borders_le _ _ _ (by decide))
    have c1 : count_symbol g1 Cell.exitDoor = 0 :=
      (f1 ▸ place_random_count _ _ _ _ (by decide) (by decide)).trans cb
    have c2 : count_symbol g2 Cell.exitDoor = 0 :=
      (f2 ▸ place_random_count _ _ _ _ (by decide) (by decide)).trans c1
    have c3 : count_symbol g3 Cell.exitDoor = 0 :=
      (f3 ▸ place_random_count _ _ _ _ (by decide) (by decide)).trans c2
    exact (f4 ▸ place_random_count _ _ _ _ (by decide) (by decide)).trans c3
  · intro hw3 hh3
    have hmem : (width / 2, height / 2) ∈
        border_forbidden width height (width / 2) (height / 2) :=
      List.mem_cons_self _ _
    have hc0 : getCell (make_grid width height) (width / 2) (height / 2) =
        Cell.floor :=
      getCell_make_grid (Nat.div_lt_self (by omega) (by omega))
        (Nat.div_lt_self (by omega) (by omega))
    have hcb : getCell (set_borders (make_grid width height) width height)
        (width / 2) (height / 2) = Cell.floor := by
      rw [hsb.2.2 _ _ (by omega) (by omega) (by omega) (by omega)]
      exact hc0
    have hc1 : getCell g1 (width / 2) (height / 2) = Cell.floor :=
      (f1 ▸ place_random_getCell_forbidden _ _ _ _ _ hmem).trans hcb
    have hc2 : getCell g2 (width / 2) (height / 2) = Cell.floor :=
      (f2 ▸ place_random_getCell_forbidden _ _ _ _ _ hmem).trans hc1
    have hc3 : getCell g3 (width / 2) (height / 2) = Cell.floor :=
      (f3 ▸ place_random_getCell_forbidden _ _ _ _ _ hmem).trans hc2
    exact (f4 ▸ place_random_getCell_forbidden _ _ _ _ _ hmem).trans hc3

/-! ### The branches of try_move -/

theorem try_move_eq_blocked {world : World} {dx dy : Int} (r : Rng)
    (h : destCell world dx dy = Cell.wall) :
    try_move world dx dy r = ({ world with message := msg_blocked }, r) := by
  unfold destCell at h
  simp only [try_move]
  rw [if_pos h]

theorem try_move_eq_treasure {world : World} {dx dy : Int} (r : Rng)
    (h : destCell world dx dy = Cell.treasure) :
    try_move world dx dy r =
      post_move
        { world with
            player_pos := dest world dx dy,
            turn := world.turn + 1,
            score := world.score + 10,
            message := msg_treasure,
            grid := setCell world.grid (dest world dx dy).1 (dest world dx dy).2
              Cell.floor } r := by
  unfold destCell at h
  simp only [try_move]
  rw [if_neg (by rw [h]; decide), if_pos h]

theorem try_move_eq_trap {world : World} {dx dy : Int} (r : Rng)
    (h : destCell world dx dy = Cell.trap) :
    try_move world dx dy r =
      post_move
        { world with
            player_pos := dest world dx dy,
            turn := world.turn + 1,
            hp := world.hp - 1,
            message := msg_trap,
            grid := setCell world.grid (dest world dx dy).1 (dest world dx dy).2
              Cell.floor } r := by
  unfold destCell at h
  simp only [try_move]
  rw [if_neg (by rw [h]; decide), if_neg (by rw [h]; decide), if_pos h]

theorem try_move_eq_heal {world : World} {dx dy : Int} (r : Rng)
    (h : destCell world dx dy = Cell.heal) :
    try_move world dx dy r =
      post_move
        { world with
            player_pos := dest world dx dy,
            turn := world.turn + 1,
            hp := world.hp + 2,
            message := msg_heal,
            grid := setCell world.grid (dest world dx dy).1 (dest world dx dy).2
              Cell.floor } r := by
  unfold destCell at h
  simp only [try_move]
  rw [if_neg (by rw [h]; decide), if_neg (by rw [h]; decide),
    if_neg (by rw [h]; decide), if_pos h]

theorem try_move_eq_exit {world : World} {dx dy : Int} (r : Rng)
    (h : destCell world dx dy = Cell.exitDoor) :
    try_move world dx dy r =
      ({ world with
          player_pos := dest world dx dy,
          turn := world.turn + 1,
          won := true,
          message := msg_victory }, r) := by
  unfold destCell at h
  simp only [try_move]
  rw [if_neg (by rw [h]; decide), if_neg (by rw [h]; decide),
    if_neg (by rw [h]; decide), if_neg (by rw [h]; decide), if_pos h]

theorem try_move_eq_flavor {world : World} {dx dy : Int} (r : Rng)
    (h1 : destCell world dx dy ≠ Cell.wall) (h2 : destCell world dx dy ≠ Cell.treasure)
    (h3 : destCell world dx dy ≠ Cell.trap) (h4 : destCell world dx dy ≠ Cell.heal)
    (h5 : destCell world dx dy ≠ Cell.exitDoor) :
    try_move world dx dy r =
      post_move
        { world with
            player_pos := dest world dx dy,
            turn := world.turn + 1,
            message := (choice flavor_msgs r).1 } (choice flavor_msgs r).2 := by
  unfold destCell at h1 h2 h3 h4 h5
  simp only [try_move]
  rw [if_neg h1, if_neg h2, if_neg h3, if_neg h4, if_neg h5]

/-! ### The exception-aware variants agree with the total functions -/

theorem getD_of_lt {g : Grid} {y : Nat} (hy : y < g.length) :
    g.getD y [] = g[y] := by
  rw [List.getD_eq_getElem?_getD, List.getElem?_eq_getElem hy]
  rfl

theorem getCellE_eq {g : Grid} {x y : Nat} (hy : y < g.length)
    (hx : x < (g.getD y []).length) :
    getCellE g x y = some (getCell g x y) := by
  have hx2 : x < g[y].length := by rw [← getD_of_lt hy]; exact hx
  unfold getCellE getCell
  rw [List.getElem?_eq_getElem hy, Option.some_bind, List.getElem?_eq_getElem hx2,
    getD_of_lt hy, List.getD_eq_getElem?_getD, List.getElem?_eq_getElem hx2]
  rfl

theorem setCellE_eq {g : Grid} {x y : Nat} (c : Cell) (hy : y < g.length)
    (hx : x < (g.getD y []).length) :
    setCellE g x y c = some (setCell g x y c) := by
  have hx2 : x < g[y].length := by rw [← getD_of_lt hy]; exact hx
  unfold setCellE
  rw [List.getElem?_eq_getElem hy, Option.some_bind, if_pos hx2]

theorem randrangeE_eq {n : Nat} (hn : n ≠ 0) (r : Rng) :
    randrangeE n r = some (randrange n r) := by
  rw [randrangeE, if_neg hn]

theorem randrangeIE_eq {lo hi : Nat} (h : lo < hi) (r : Rng) :
    randrangeIE lo hi r = some (randrangeI lo hi r) := by
  rw [randrangeIE, if_neg (Nat.not_le.2 h)]

theorem place_random_goE_eq {w h : Nat} (symbol : Cell)
    (forbidden : List (Nat × Nat)) (hw : 1 ≤ w) (hh : 1 ≤ h) :
    ∀ (fuel rem : Nat) (g : Grid) (r : Rng), rectGrid g w h →
      place_random_goE w h symbol forbidden fuel rem g r =
        some (place_random_go w h symbol forbidden fuel rem g r) := by
  intro fuel
  induction fuel with
  | zero => intro rem g r _; cases rem <;> rfl
  | succ fuel ih =>
    intro rem g r rect
    cases rem with
    | zero => rfl
    | succ rem =>
      rw [place_random_goE, place_random_go]
      simp only [randrangeE_eq (show w ≠ 0 by omega),
        randrangeE_eq (show h ≠ 0 by omega), Option.bind_eq_bind, Option.some_bind,
        randrange, nextNat]
      split
      · exact ih (rem + 1) g _ rect
      · rename_i hforb
        have hy : r.nats.tail.headD 0 % h < g.length := by
          rw [rect.1]; exact Nat.mod_lt _ (by omega)
        have hx : r.nats.headD 0 % w < (g.getD (r.nats.tail.headD 0 % h) []).length := by
          rw [rect_getD rect hy]; exact Nat.mod_lt _ (by omega)
        rw [getCellE_eq hy hx, Option.some_bind]
        split
        · exact ih (rem + 1) g _ rect
        · rw [setCellE_eq symbol hy hx, Option.some_bind]
          exact ih rem _ _ (rectGrid_setCell rect _ _ _)

theorem spawn_exit_goE_eq {w h : Nat} (px py : Nat) (hw : 3 ≤ w) (hh : 3 ≤ h) :
    ∀ (fuel : Nat) (g : Grid) (r : Rng), rectGrid g w h →
      spawn_exit_goE px py w h fuel g r =
        some (spawn_exit_go px py w h fuel g r) := by
  intro fuel
  induction fuel with
  | zero => intro g r _; rfl
  | succ fuel ih =>
    intro g r rect
    rw [spawn_exit_goE, spawn_exit_go]
    simp only [randrangeIE_eq (show 1 < w - 1 by omega),
      randrangeIE_eq (show 1 < h - 1 by omega), Option.bind_eq_bind, Option.some_bind,
      randrangeI, nextNat]
    split
    · exact ih g _ rect
    · rename_i hne
      have hmx := Nat.mod_lt (r.nats.headD 0) (show 0 < w - 1 - 1 by omega)
      have hmy := Nat.mod_lt (r.nats.tail.headD 0) (show 0 < h - 1 - 1 by omega)
      have hy : 1 + r.nats.tail.headD 0 % (h - 1 - 1) < g.length := by
        rw [rect.1]; omega
      have hx : 1 + r.nats.headD 0 % (w - 1 - 1) <
          (g.getD (1 + r.nats.tail.headD 0 % (h - 1 - 1)) []).length := by
        rw [rect_getD rect hy]; omega
      rw [getCellE_eq hy hx, Option.some_bind]
      split
      · rw [setCellE_eq Cell.exitDoor hy hx, Option.some_bind]
      · exact ih g _ rect

theorem maybe_spawn_goE_eq {w h : Nat} (px py : Nat) (symbol : Cell)
    (hw : 3 ≤ w) (hh : 3 ≤ h) :
    ∀ (fuel : Nat) (world : World) (r : Rng), rectGrid world.grid w h →
      maybe_spawn_goE px py w h symbol fuel world r =
        some (maybe_spawn_go px py w h symbol fuel world r) := by
  intro fuel
  induction fuel with
  | zero => intro world r _; rfl
  | succ fuel ih =>
    intro world r rect
    rw [maybe_spawn_goE, maybe_spawn_go]
    simp only [randrangeIE_eq (show 1 < w - 1 by omega),
      randrangeIE_eq (show 1 < h - 1 by omega), Option.bind_eq_bind, Option.some_bind,
      randrangeI, nextNat]
    split
    · exact ih world _ rect
    · rename_i hne
      have hmx := Nat.mod_lt (r.nats.headD 0) (show 0 < w - 1 - 1 by omega)
      have hmy := Nat.mod_lt (r.nats.tail.headD 0) (show 0 < h - 1 - 1 by omega)
      have hy : 1 + r.nats.tail.headD 0 % (h - 1 - 1) < world.grid.length := by
        rw [rect.1]; omega
      have hx : 1 + r.nats.headD 0 % (w - 1 - 1) <
          (world.grid.getD (1 + r.nats.tail.headD 0 % (h - 1 - 1)) []).length := by
        rw [rect_getD rect hy]; omega
      rw [getCellE_eq hy hx, Option.some_bind]
      split
      · rw [setCellE_eq symbol hy hx, Option.some_bind]
      · exact ih world _ rect

theorem spawn_exitE_eq (world : World) (r : Rng) {w h : Nat}
    (rect : rectGrid world.grid w h) (hw : 3 ≤ w) (hh : 3 ≤ h) :
    spawn_exitE world r = some (spawn_exit world r) := by
  have hH : world.grid.length = h := rect.1
  have hW : (world.grid.getD 0 []).length = w :=
    rect_getD rect (by rw [rect.1]; omega)
  rw [spawn_exitE, spawn_exit]
  simp only [hH, hW]
  rw [spawn_exit_goE_eq world.player_pos.1 world.player_pos.2 hw hh 200
    world.grid r rect]
  simp only [Option.bind_eq_bind, Option.some_bind]
  rcases spawn_exit_go world.player_pos.1 world.player_pos.2 w h 200 world.grid r with
    ⟨g2, flag, r2⟩
  cases flag <;> rfl

theorem maybe_spawnE_eq (world : World) (r : Rng) {w h : Nat}
    (rect : rectGrid world.grid w h) (hw : 3 ≤ w) (hh : 3 ≤ h) :
    maybe_spawnE world r = some (maybe_spawn world r) := by
  have hH : world.grid.length = h := rect.1
  have hW : (world.grid.getD 0 []).length = w :=
    rect_getD rect (by rw [rect.1]; omega)
  rw [maybe_spawnE, maybe_spawn]
  by_cases hsp : world.exit_spawned
  · rw [if_pos hsp, if_pos hsp]
  · rw [if_neg hsp, if_neg hsp]
    simp only [randFloat, hH, hW]
    by_cases h1 : (r.floats.headD 1 : ℚ) < 0.12
    · rw [if_pos h1, if_pos h1]
      exact maybe_spawn_goE_eq _ _ Cell.treasure hw hh 60 world _ rect
    · rw [if_neg h1, if_neg h1]
      by_cases h2 : (r.floats.headD 1 : ℚ) < 0.20
      · rw [if_pos h2, if_pos h2]
        exact maybe_spawn_goE_eq _ _ Cell.trap hw hh 60 world _ rect
      · rw [if_neg h2, if_neg h2]

theorem spawn_exit_rect (world : World) (r : Rng) {w h : Nat}
    (rect : rectGrid world.grid w h) :
    rectGrid (spawn_exit world r).1.grid w h := by
  rcases spawn_exit_cases world r with ⟨r', heq⟩ | ⟨x, y, r', hne, hfloor, heq⟩
  · rw [heq]
    exact rect
  · rw [heq]
    exact rectGrid_setCell rect _ _ _

theorem post_moveE_eq (world : World) (r : Rng) {w h : Nat}
    (rect : rectGrid world.grid w h) (hw : 3 ≤ w) (hh : 3 ≤ h) :
    post_moveE world r = some (post_move world r) := by
  rw [post_moveE, post_move]
  by_cases hcond : world.exit_spawned = false ∧
    count_symbol world.grid Cell.treasure = 0
  · rw [if_pos hcond, if_pos hcond, spawn_exitE_eq world r rect hw hh]
    simp only [Option.bind_eq_bind, Option.some_bind]
    have rect1 := spawn_exit_rect world r rect
    rcases hsw : spawn_exit world r with ⟨w1, r1⟩
    rw [hsw] at rect1
    exact maybe_spawnE_eq w1 r1 rect1 hw hh
  · rw [if_neg hcond, if_neg hcond]
    simp only [Option.bind_eq_bind, Option.some_bind]
    exact maybe_spawnE_eq world r rect hw hh

theorem dest_lt (world : World) (dx dy : Int) {w h : Nat}
    (rect : rectGrid world.grid w h) (hw : 1 ≤ w) (hh : 1 ≤ h) :
    (dest world dx dy).1 < w ∧ (dest world dx dy).2 < h := by
  have hH : (world.grid.length : Int) = (h : Int) := by rw [rect.1]
  have hW : ((world.grid.getD 0 []).length : Int) = (w : Int) := by
    rw [rect_getD rect (by rw [rect.1]; omega)]
  unfold dest clamp
  rw [hH, hW]
  constructor <;> omega

theorem try_moveE_eq (world : World) (dx dy : Int) (r : Rng) {w h : Nat}
    (rect : rectGrid world.grid w h) (hw : 3 ≤ w) (hh : 3 ≤ h) :
    try_moveE world dx dy r = some (try_move world dx dy r) := by
  obtain ⟨hx', hy'⟩ := dest_lt world dx dy rect (by omega) (by omega)
  have hy : (dest world dx dy).2 < world.grid.length := by rw [rect.1]; exact hy'
  have hx : (dest world dx dy).1 <
      (world.grid.getD (dest world dx dy).2 []).length := by
    rw [rect_getD rect hy]; exact hx'
  rw [try_moveE, try_move]
  rw [getCellE_eq hy hx]
  simp only [Option.bind_eq_bind, Option.some_bind]
  split
  · rfl
  · split
    · rw [setCellE_eq Cell.floor hy hx, Option.some_bind]
      exact post_moveE_eq _ r (rectGrid_setCell rect _ _ _) hw hh
    · split
      · rw [setCellE_eq Cell.floor hy hx, Option.some_bind]
        exact post_moveE_eq _ r (rectGrid_setCell rect _ _ _) hw hh
      · split
        · rw [setCellE_eq Cell.floor hy hx, Option.some_bind]
          exact post_moveE_eq _ r (rectGrid_setCell rect _ _ _) hw hh
        · split
          · rfl
          · rw [show choiceE flavor_msgs r = some (choice flavor_msgs r) from rfl]
            simp only [Option.bind_eq_bind, Option.some_bind]
            exact post_moveE_eq _ _ rect hw hh

theorem set_bordersE_eq (width height : Nat) (hw : 1 ≤ width) (hh : 1 ≤ height) :
    ∀ (g : Grid), rectGrid g width height →
      set_bordersE g width height = some (set_borders g width height) := by
  have step1 : ∀ (xs : List Nat), (∀ x ∈ xs, x < width) → ∀ (g : Grid),
      rectGrid g width height →
      xs.foldlM (fun g x => do
        let ga ← setCellE g x 0 Cell.wall
        setCellE ga x (height - 1) Cell.wall) g =
        some (xs.foldl
          (fun g x => setCell (setCell g x 0 Cell.wall) x (height - 1) Cell.wall) g) ∧
      rectGrid (xs.foldl
        (fun g x => setCell (setCell g x 0 Cell.wall) x (height - 1) Cell.wall) g)
        width height := by
    intro xs
    induction xs with
    | nil => exact fun _ g rect => ⟨rfl, rect⟩
    | cons x xs ih =>
      intro hxs g rect
      have hxw : x < width := hxs x (List.mem_cons_self x xs)
      have h0 : (0 : Nat) < g.length := by rw [rect.1]; omega
      have h0x : x < (g.getD 0 []).length := by rw [rect_getD rect h0]; omega
      have rect1 := rectGrid_setCell rect x 0 Cell.wall
      have h1 : height - 1 < (setCell g x 0 Cell.wall).length := by
        rw [length_setCell, rect.1]; omega
      have h1x : x < ((setCell g x 0 Cell.wall).getD (height - 1) []).length := by
        rw [rect_getD rect1 h1]; omega
      have rect2 := rectGrid_setCell rect1 x (height - 1) Cell.wall
      obtain ⟨hfold, hrect⟩ :=
        ih (fun z hz => hxs z (List.mem_cons_of_mem x hz)) _ rect2
      refine ⟨?_, hrect⟩
      rw [List.foldlM_cons, List.foldl_cons]
      rw [setCellE_eq Cell.wall h0 h0x]
      simp only [Option.bind_eq_bind, Option.some_bind]
      rw [setCellE_eq Cell.wall h1 h1x]
      simp only [Option.bind_eq_bind, Option.some_bind]
      exact hfold
  have step2 : ∀ (ys : List Nat), (∀ y ∈ ys, y < height) → ∀ (g : Grid),
      rectGrid g width height →
      ys.foldlM (fun g y => do
        let ga ← setCellE g 0 y Cell.wall
        setCellE ga (width - 1) y Cell.wall) g =
        some (ys.foldl
          (fun g y => setCell (setCell g 0 y Cell.wall) (width - 1) y Cell.wall) g) := by
    intro ys
    induction ys with
    | nil => exact fun _ g rect => rfl
    | cons y ys ih =>
      intro hys g rect
      have hyh : y < height := hys y (List.mem_cons_self y ys)
      have h0 : y < g.length := by rw [rect.1]; omega
      have h0x : (0 : Nat) < (g.getD y []).length := by rw [rect_getD rect h0]; omega
      have rect1 := rectGrid_setCell rect 0 y Cell.wall
      have h1 : y < (setCell g 0 y Cell.wall).length := by
        rw [length_setCell, rect.1]; omega
      have h1x : width - 1 < ((setCell g 0 y Cell.wall).getD y []).length := by
        rw [rect_getD rect1 h1]; omega
      have rect2 := rectGrid_setCell rect1 (width - 1) y Cell.wall
      rw [List.foldlM_cons, List.foldl_cons]
      rw [setCellE_eq Cell.wall h0 h0x]
      simp only [Option.bind_eq_bind, Option.some_bind]
      rw [setCellE_eq Cell.wall h1 h1x]
      simp only [Option.bind_eq_bind, Option.some_bind]
      exact ih (fun z hz => hys z (List.mem_cons_of_mem y hz)) _ rect2
  intro g rect
  rw [set_bordersE, set_borders]
  obtain ⟨hfold1, hrect1⟩ :=
    step1 (List.range width) (fun x hx => List.mem_range.1 hx) g rect
  rw [hfold1]
  simp only [Option.bind_eq_bind, Option.some_bind]
  exact step2 (List.range height) (fun y hy => List.mem_range.1 hy) _ hrect1

theorem place_random_go_rect (w0 h0 : Nat) (symbol : Cell)
    (forbidden : List (Nat × Nat)) {w h : Nat} :
    ∀ (fuel rem : Nat) (g : Grid) (r : Rng), rectGrid g w h →
      rectGrid (place_random_go w0 h0 symbol forbidden fuel rem g r).1 w h := by
  intro fuel
  induction fuel with
  | zero => intro rem g r rect; cases rem <;> exact rect
  | succ fuel ih =>
    intro rem g r rect
    cases rem with
    | zero => exact rect
    | succ rem =>
      rw [place_random_go]
      simp only [randrange, nextNat]
      split
      · exact ih (rem + 1) g _ rect
      · split
        · exact ih (rem + 1) g _ rect
        · exact ih rem _ _ (rectGrid_setCell rect _ _ _)

theorem place_randomE_eq {g : Grid} {w h : Nat} (rect : rectGrid g w h)
    (hw : 1 ≤ w) (hh : 1 ≤ h) (symbol : Cell) (count : Nat)
    (forbidden : List (Nat × Nat)) (r : Rng) :
    place_randomE g symbol count forbidden r =
      some (place_random g symbol count forbidden r) := by
  have hH : g.length = h := rect.1
  have hW : (g.getD 0 []).length = w := rect_getD rect (by rw [rect.1]; omega)
  rw [place_randomE, place_random]
  simp only [hH, hW]
  exact place_random_goE_eq symbol forbidden hw hh 10000 count g r rect

theorem place_random_rect {g : Grid} {w h : Nat} (rect : rectGrid g w h)
    (symbol : Cell) (count : Nat) (forbidden : List (Nat × Nat)) (r : Rng) :
    rectGrid (place_random g symbol count forbidden r).1 w h :=
  place_random_go_rect _ _ symbol forbidden 10000 count g r rect

theorem build_worldE_eq (width height : Nat) (r : Rng)
    (hw : 1 ≤ width) (hh : 1 ≤ height) :
    build_worldE width height r = some (build_world width height r) := by
  have rectm := rectGrid_make_grid width height
  have hsb := set_borders_spec width height hw hh (make_grid width height) rectm
  rw [build_worldE, build_world]
  rw [set_bordersE_eq width height hw hh _ rectm]
  simp only [Option.bind_eq_bind, Option.some_bind]
  rw [place_randomE_eq hsb.1 hw hh Cell.wall _ _ r]
  simp only [Option.some_bind]
  have rect1 := place_random_rect hsb.1 Cell.wall (max 6 ((width * height) / 18))
    (border_forbidden width height (width / 2) (height / 2)) r
  rcases h1 : place_random (set_borders (make_grid width height) width height)
      Cell.wall (max 6 ((width * height) / 18))
      (border_forbidden width height (width / 2) (height / 2)) r with ⟨g1, r1⟩
  rw [h1] at rect1
  simp only [h1]
  rw [place_randomE_eq rect1 hw hh Cell.treasure _ _ r1]
  simp only [Option.some_bind]
  have rect2 := place_random_rect rect1 Cell.treasure (max 4 ((width * height) / 30))
    (border_forbidden width height (width / 2) (height / 2)) r1
  rcases h2 : place_random g1 Cell.treasure (max 4 ((width * height) / 30))
      (border_forbidden width height (width / 2) (height / 2)) r1 with ⟨g2, r2⟩
  rw [h2] at rect2
  simp only [h2]
  rw [place_randomE_eq rect2 hw hh Cell.trap _ _ r2]
  simp only [Option.some_bind]
  have rect3 := place_random_rect rect2 Cell.trap (max 4 ((width * height) / 35))
    (border_forbidden width height (width / 2) (height / 2)) r2
  rcases h3 : place_random g2 Cell.trap (max 4 ((width * height) / 35))
      (border_forbidden width height (width / 2) (height / 2)) r2 with ⟨g3, r3⟩
  rw [h3] at rect3
  simp only [h3]
  rw [place_randomE_eq rect3 hw hh Cell.heal _ _ r3]
  simp only [Option.some_bind]

/-! ### One iteration of game_loop -/

theorem loop_step_won_fresh (width height : Nat) (world : World) (input : String)
    (r : Rng) (hwon : world.won = true) :
    (loop_step width height world input r).1 = StepResult.quit ∨
    (loop_step width height world input r).1 =
      StepResult.next (build_world width height r).1 := by
  rw [loop_step, if_pos hwon]
  by_cases hcmd : parse_command input = "r"
  · rw [if_pos hcmd]
    right
    rfl
  · rw [if_neg hcmd]
    left
    rfl

theorem loop_step_active (width height : Nat) (world : World) (input : String)
    (r : Rng) (hwon : world.won = false) (hhp : ¬world.hp ≤ 0) :
    loop_step width height world input r =
      (if parse_command input = "x" then (StepResult.quit, r)
       else if parse_command input = "h" then
        (StepResult.next { world with message := help_text }, r)
       else if parse_command input = "r" then
        (StepResult.next (build_world width height r).1, (build_world width height r).2)
       else
        match moves.lookup (parse_command input) with
        | some d => (StepResult.next (try_move world d.1 d.2 r).1, (try_move world d.1 d.2 r).2)
        | none => (StepResult.next { world with message := msg_unknown }, r)) := by
  rw [loop_step, if_neg (by rw [hwon]; exact Bool.false_ne_true), if_neg hhp]

/-! ### The player cell invariant -/

theorem player_ok_of_getCell {w : World}
    (h : getCell w.grid w.player_pos.1 w.player_pos.2 ≠ Cell.wall) : player_ok w :=
  ⟨(bounds_of_getCell_ne_wall h).1, (bounds_of_getCell_ne_wall h).2, h⟩

theorem post_move_player_ok {w1 : World} (r : Rng)
    (h : getCell w1.grid w1.player_pos.1 w1.player_pos.2 ≠ Cell.wall) :
    player_ok (post_move w1 r).1 := by
  apply player_ok_of_getCell
  have hf := post_move_frame w1 r
  rw [hf.2.2.2.1, hf.2.2.2.2.2.2]
  exact h

/-! ### Consequences of the exit invariant -/

theorem exit_inv_consequences {w : World} (hinv : exit_inv w) :
    (w.exit_spawned = true → count_symbol w.grid Cell.exitDoor = 1) ∧
    (w.exit_spawned = false → count_symbol w.grid Cell.exitDoor = 0) := by
  unfold exit_inv at hinv
  constructor <;> intro h <;> rw [h] at hinv <;> simpa using hinv

/-- The conjunction claim C1 needs, for a move that leaves grid and flag
untouched. -/
theorem exit_conj_unchanged {world w' : World} (hg : w'.grid = world.grid)
    (hf : w'.exit_spawned = world.exit_spawned) (hinv : exit_inv world) :
    exit_inv w' ∧
    (world.exit_spawned = true → w'.exit_spawned = true) ∧
    (world.exit_spawned = false → w'.exit_spawned = true →
      count_symbol w'.grid Cell.treasure = 0 ∧
      count_symbol w'.grid Cell.exitDoor = 1) ∧
    (w'.exit_spawned = false → count_symbol w'.grid Cell.exitDoor = 0) := by
  refine ⟨?_, ?_, ?_, ?_⟩
  · unfold exit_inv at hinv ⊢
    rw [hg, hf]
    exact hinv
  · intro h
    rw [hf]
    exact h
  · intro h1 h2
    rw [hf, h1] at h2
    exact absurd h2 (by decide)
  · intro h
    rw [hf] at h
    unfold exit_inv at hinv
    rw [h] at hinv
    rw [hg]
    simpa using hinv

/-- The conjunction claim C1 needs, for a move that runs the post-move
steps on an intermediate world `w1`. -/
theorem exit_conj_post {world w1 : World} (r : Rng) (hinv1 : exit_inv w1)
    (hf : w1.exit_spawned = world.exit_spawned) :
    exit_inv (post_move w1 r).1 ∧
    (world.exit_spawned = true → (post_move w1 r).1.exit_spawned = true) ∧
    (world.exit_spawned = false → (post_move w1 r).1.exit_spawned = true →
      count_symbol (post_move w1 r).1.grid Cell.treasure = 0 ∧
      count_symbol (post_move w1 r).1.grid Cell.exitDoor = 1) ∧
    ((post_move w1 r).1.exit_spawned = false →
      count_symbol (post_move w1 r).1.grid Cell.exitDoor = 0) := by
  have hinvP := post_move_exit_inv r hinv1
  refine ⟨hinvP, ?_, ?_, ?_⟩
  · intro h
    exact (post_move_frame w1 r).2.2.2.2.2.1 (hf.trans h)
  · intro h1 h2
    exact ⟨post_move_flip_no_treasure r (hf.trans h1) h2,
      (exit_inv_consequences hinvP).1 h2⟩
  · intro h
    exact (exit_inv_consequences hinvP).2 h

/-! ### Wall preservation through try_move -/

theorem spawn_exit_preservesWalls (world : World) (r : Rng) :
    preservesWalls world.grid (spawn_exit world r).1.grid := by
  rcases spawn_exit_cases world r with ⟨r', heq⟩ | ⟨x, y, r', hne, hfloor, heq⟩
  · rw [heq]
    exact preservesWalls_refl _
  · rw [heq]
    exact preservesWalls_setCell (by rw [hfloor]; decide)

theorem maybe_spawn_preservesWalls (world : World) (r : Rng) :
    preservesWalls world.grid (maybe_spawn world r).1.grid := by
  rcases maybe_spawn_cases world r with ⟨r', heq⟩ | ⟨s, x, y, r', _, _, hne, hfloor, heq⟩
  · rw [heq]
    exact preservesWalls_refl _
  · rw [heq]
    exact preservesWalls_setCell (by rw [hfloor]; decide)

theorem post_move_preservesWalls (world : World) (r : Rng) :
    preservesWalls world.grid (post_move world r).1.grid := by
  rw [post_move]
  by_cases hcond : world.exit_spawned = false ∧ count_symbol world.grid Cell.treasure = 0
  · rw [if_pos hcond]
    have h1 := spawn_exit_preservesWalls world r
    rcases hsw : spawn_exit world r with ⟨w1, r1⟩
    rw [hsw] at h1
    exact preservesWalls_trans h1 (maybe_spawn_preservesWalls w1 r1)
  · rw [if_neg hcond]
    exact maybe_spawn_preservesWalls world r

theorem try_move_preservesWalls (world : World) (dx dy : Int) (r : Rng) :
    preservesWalls world.grid (try_move world dx dy r).1.grid := by
  rcases hcell : destCell world dx dy with _ | _ | _ | _ | _ | _
  · rw [try_move_eq_flavor r (by rw [hcell]; decide) (by rw [hcell]; decide)
      (by rw [hcell]; decide) (by rw [hcell]; decide) (by rw [hcell]; decide)]
    exact post_move_preservesWalls
      { world with
          player_pos := dest world dx dy,
          turn := world.turn + 1,
          message := (choice flavor_msgs r).1 } (choice flavor_msgs r).2
  · rw [try_move_eq_blocked r hcell]
    exact preservesWalls_refl _
  · rw [try_move_eq_treasure r hcell]
    exact preservesWalls_trans
      (preservesWalls_setCell (by unfold destCell at hcell; rw [hcell]; decide))
      (post_move_preservesWalls
        { world with
            player_pos := dest world dx dy,
            turn := world.turn + 1,
            score := world.score + 10,
            message := msg_treasure,
            grid := setCell world.grid (dest world dx dy).1 (dest world dx dy).2
              Cell.floor } r)
  · rw [try_move_eq_trap r hcell]
    exact preservesWalls_trans
      (preservesWalls_setCell (by unfold destCell at hcell; rw [hcell]; decide))
      (post_move_preservesWalls
        { world with
            player_pos := dest world dx dy,
            turn := world.turn + 1,
            hp := world.hp - 1,
            message := msg_trap,
            grid := setCell world.grid (dest world dx dy).1 (dest world dx dy).2
              Cell.floor } r)
  · rw [try_move_eq_heal r hcell]
    exact preservesWalls_trans
      (preservesWalls_setCell (by unfold destCell at hcell; rw [hcell]; decide))
      (post_move_preservesWalls
        { world with
            player_pos := dest world dx dy,
            turn := world.turn + 1,
            hp := world.hp + 2,
            message := msg_heal,
            grid := setCell world.grid (dest world dx dy).1 (dest world dx dy).2
              Cell.floor } r)
  · rw [try_move_eq_exit r hcell]
    exact preservesWalls_refl _

/-- `build_world` never places an exit cell, whatever the dimensions. -/
theorem build_world_no_exit (width height : Nat) (r : Rng) :
    count_symbol (build_world width height r).1.grid Cell.exitDoor = 0 := by
  obtain ⟨g1, r1, h1⟩ : ∃ g1 r1,
      place_random (set_borders (make_grid width height) width height) Cell.wall
        (max 6 ((width * height) / 18))
        (border_forbidden width height (width / 2) (height / 2)) r = (g1, r1) :=
    ⟨_, _, rfl⟩
  obtain ⟨g2, r2, h2⟩ : ∃ g2 r2,
      place_random g1 Cell.treasure (max 4 ((width * height) / 30))
        (border_forbidden width height (width / 2) (height / 2)) r1 = (g2, r2) :=
    ⟨_, _, rfl⟩
  obtain ⟨g3, r3, h3⟩ : ∃ g3 r3,
      place_random g2 Cell.trap (max 4 ((width * height) / 35))
        (border_forbidden width height (width / 2) (height / 2)) r2 = (g3, r3) :=
    ⟨_, _, rfl⟩
  obtain ⟨g4, r4, h4⟩ : ∃ g4 r4,
      place_random g3 Cell.heal 1
        (border_forbidden width height (width / 2) (height / 2)) r3 = (g4, r4) :=
    ⟨_, _, rfl⟩
  have hgrid : (build_world width height r).1.grid = g4 := by
    simp only [build_world, h1, h2, h3, h4]
  have f1 : (place_random (set_borders (make_grid width height) width height) Cell.wall
      (max 6 ((width * height) / 18))
      (border_forbidden width height (width / 2) (height / 2)) r).1 = g1 := by rw [h1]
  have f2 : (place_random g1 Cell.treasure (max 4 ((width * height) / 30))
      (border_forbidden width height (width / 2) (height / 2)) r1).1 = g2 := by rw [h2]
  have f3 : (place_random g2 Cell.trap (max 4 ((width * height) / 35))
      (border_forbidden width height (width / 2) (height / 2)) r2).1 = g3 := by rw [h3]
  have f4 : (place_random g3 Cell.heal 1
      (border_forbidden width height (width / 2) (height / 2)) r3).1 = g4 := by rw [h4]
  rw [hgrid]
  have c0 : count_symbol (make_grid width height) Cell.exitDoor = 0 :=
    count_symbol_make_grid width height (by decide)
  have cb : count_symbol (set_borders (make_grid width height) width height)
      Cell.exitDoor = 0 :=
    Nat.le_zero.1 (c0 ▸ count_symbol_set_borders_le _ _ _ (by decide))
  have c1 : count_symbol g1 Cell.exitDoor = 0 :=
    (f1 ▸ place_random_count _ _ _ _ (by decide) (by decide)).trans cb
  have c2 : count_symbol g2 Cell.exitDoor = 0 :=
    (f2 ▸ place_random_count _ _ _ _ (by decide) (by decide)).trans c1
  have c3 : count_symbol g3 Cell.exitDoor = 0 :=
    (f3 ▸ place_random_count _ _ _ _ (by decide) (by decide)).trans c2
  exact (f4 ▸ place_random_count _ _ _ _ (by decide) (by decide)).trans c3

/-! ### The claims -/

/-- C1: an exit cell appears exactly when the treasure count has reached
zero while no exit has spawned yet: `build_world` starts every world with
no exit and `exit_spawned = false`; every move preserves the invariant that
the grid holds exactly one exit cell when `exit_spawned` is set and none
otherwise (so there are always 0 or 1 exit cells); `exit_spawned` never
turns off, so the exit is placed at most once; when a move flips it on, the
treasure count is zero and the new exit cell is unique; and while it is
still false (placement failed or was never needed) the grid is exit-free,
so the spawn is retried on the next qualifying move. -/
theorem exit_lifecycle :
    (∀ (width height : Nat) (r : Rng), exit_inv (build_world width height r).1) ∧
    (∀ (world : World) (dx dy : Int) (r : Rng), exit_inv world →
      exit_inv (try_move world dx dy r).1 ∧
      (world.exit_spawned = true → (try_move world dx dy r).1.exit_spawned = true) ∧
      (world.exit_spawned = false → (try_move world dx dy r).1.exit_spawned = true →
        count_symbol (try_move world dx dy r).1.grid Cell.treasure = 0 ∧
        count_symbol (try_move world dx dy r).1.grid Cell.exitDoor = 1) ∧
      ((try_move world dx dy r).1.exit_spawned = false →
        count_symbol (try_move world dx dy r).1.grid Cell.exitDoor = 0)) := by
  constructor
  · intro width height r
    unfold exit_inv
    rw [build_world_no_exit]
    rfl
  · intro world dx dy r hinv
    rcases hcell : destCell world dx dy with _ | _ | _ | _ | _ | _
    · rw [try_move_eq_flavor r (by rw [hcell]; decide) (by rw [hcell]; decide)
        (by rw [hcell]; decide) (by rw [hcell]; decide) (by rw [hcell]; decide)]
      exact exit_conj_post _ hinv rfl
    · rw [try_move_eq_blocked r hcell]
      exact exit_conj_unchanged rfl rfl hinv
    · rw [try_move_eq_treasure r hcell]
      refine exit_conj_post r ?_ rfl
      unfold exit_inv at hinv ⊢
      dsimp only
      rw [count_symbol_setCell_of_ne
        (by unfold destCell at hcell; rw [hcell]; decide) (by decide)]
      exact hinv
    · rw [try_move_eq_trap r hcell]
      refine exit_conj_post r ?_ rfl
      unfold exit_inv at hinv ⊢
      dsimp only
      rw [count_symbol_setCell_of_ne
        (by unfold destCell at hcell; rw [hcell]; decide) (by decide)]
      exact hinv
    · rw [try_move_eq_heal r hcell]
      refine exit_conj_post r ?_ rfl
      unfold exit_inv at hinv ⊢
      dsimp only
      rw [count_symbol_setCell_of_ne
        (by unfold destCell at hcell; rw [hcell]; decide) (by decide)]
      exact hinv
    · rw [try_move_eq_exit r hcell]
      exact exit_conj_unchanged rfl rfl hinv

theorem exit_lifecycle_witness :
    exit_inv (try_move sampleWorld 1 0 sampleRng).1 ∧
    exit_inv (build_world 15 11 sampleRng).1 :=
  ⟨(exit_lifecycle.2 sampleWorld 1 0 sampleRng (by decide)).1,
    exit_lifecycle.1 15 11 sampleRng⟩

/-- C2: resolving a non-blocked move does exactly what the cell says — a
treasure adds exactly 10 to the score (hp untouched), a trap subtracts
exactly 1 from hp (score untouched), a heal adds exactly 2 to hp (score
untouched), and in each case the consumed cell is floor afterwards. -/
theorem cell_resolution_effects (world : World) (dx dy : Int) (r : Rng) :
    (destCell world dx dy = Cell.treasure →
      (try_move world dx dy r).1.score = world.score + 10 ∧
      (try_move world dx dy r).1.hp = world.hp ∧
      getCell (try_move world dx dy r).1.grid (dest world dx dy).1
        (dest world dx dy).2 = Cell.floor) ∧
    (destCell world dx dy = Cell.trap →
      (try_move world dx dy r).1.hp = world.hp - 1 ∧
      (try_move world dx dy r).1.score = world.score ∧
      getCell (try_move world dx dy r).1.grid (dest world dx dy).1
        (dest world dx dy).2 = Cell.floor) ∧
    (destCell world dx dy = Cell.heal →
      (try_move world dx dy r).1.hp = world.hp + 2 ∧
      (try_move world dx dy r).1.score = world.score ∧
      getCell (try_move world dx dy r).1.grid (dest world dx dy).1
        (dest world dx dy).2 = Cell.floor) := by
  refine ⟨?_, ?_, ?_⟩
  · intro h
    have hb := bounds_of_getCell_ne_wall
      (show getCell world.grid (dest world dx dy).1 (dest world dx dy).2 ≠ Cell.wall by
        unfold destCell at h; rw [h]; decide)
    rw [try_move_eq_treasure r h]
    exact ⟨(post_move_frame _ r).1, (post_move_frame _ r).2.1,
      ((post_move_frame _ r).2.2.2.2.2.2).trans (getCell_setCell_self hb.1 hb.2)⟩
  · intro h
    have hb := bounds_of_getCell_ne_wall
      (show getCell world.grid (dest world dx dy).1 (dest world dx dy).2 ≠ Cell.wall by
        unfold destCell at h; rw [h]; decide)
    rw [try_move_eq_trap r h]
    exact ⟨(post_move_frame _ r).2.1, (post_move_frame _ r).1,
      ((post_move_frame _ r).2.2.2.2.2.2).trans (getCell_setCell_self hb.1 hb.2)⟩
  · intro h
    have hb := bounds_of_getCell_ne_wall
      (show getCell world.grid (dest world dx dy).1 (dest world dx dy).2 ≠ Cell.wall by
        unfold destCell at h; rw [h]; decide)
    rw [try_move_eq_heal r h]
    exact ⟨(post_move_frame _ r).2.1, (post_move_frame _ r).1,
      ((post_move_frame _ r).2.2.2.2.2.2).trans (getCell_setCell_self hb.1 hb.2)⟩

theorem cell_resolution_effects_witness :
    (try_move sampleWorld 0 (-1) sampleRng).1.score = sampleWorld.score + 10 ∧
    (try_move sampleWorld 1 0 sampleRng).1.hp = sampleWorld.hp - 1 ∧
    (try_move sampleWorld 0 1 sampleRng).1.hp = sampleWorld.hp + 2 :=
  ⟨((cell_resolution_effects sampleWorld 0 (-1) sampleRng).1 (by decide)).1,
    ((cell_resolution_effects sampleWorld 1 0 sampleRng).2.1 (by decide)).1,
    ((cell_resolution_effects sampleWorld 0 1 sampleRng).2.2 (by decide)).1⟩

/-- C3: a move whose candidate destination is a wall changes nothing but
the message — position, turn, score, hp, the whole grid, the flags and even
the random streams stay as they were; the message becomes the blocked
feedback. -/
theorem wall_block_frame (world : World) (dx dy : Int) (r : Rng)
    (h : destCell world dx dy = Cell.wall) :
    (try_move world dx dy r).1.player_pos = world.player_pos ∧
    (try_move world dx dy r).1.turn = world.turn ∧
    (try_move world dx dy r).1.score = world.score ∧
    (try_move world dx dy r).1.hp = world.hp ∧
    (try_move world dx dy r).1.grid = world.grid ∧
    (try_move world dx dy r).1.won = world.won ∧
    (try_move world dx dy r).1.exit_spawned = world.exit_spawned ∧
    (try_move world dx dy r).1.message = msg_blocked ∧
    (try_move world dx dy r).2 = r := by
  rw [try_move_eq_blocked r h]
  exact ⟨rfl, rfl, rfl, rfl, rfl, rfl, rfl, rfl, rfl⟩

theorem wall_block_frame_witness :
    (try_move sampleWorld (-1) 0 sampleRng).1.player_pos = sampleWorld.player_pos ∧
    (try_move sampleWorld (-1) 0 sampleRng).1.turn = sampleWorld.turn :=
  ⟨(wall_block_frame sampleWorld (-1) 0 sampleRng (by decide)).1,
    (wall_block_frame sampleWorld (-1) 0 sampleRng (by decide)).2.1⟩

/-- C4: every `build_world` grid (any dimensions of at least 1) has its
whole border ring made of walls, and every subsequent `try_move` (the only
operation that touches a live grid, placement routines included) preserves
that. -/
theorem border_ring_always_wall :
    (∀ (width height : Nat) (r : Rng), 1 ≤ width → 1 ≤ height →
      borderWall width height (build_world width height r).1.grid) ∧
    (∀ (width height : Nat) (world : World) (dx dy : Int) (r : Rng),
      borderWall width height world.grid →
      borderWall width height (try_move world dx dy r).1.grid) := by
  constructor
  · intro width height r hw hh
    exact (build_world_grid_facts width height r hw hh).1
  · intro width height world dx dy r hb
    exact borderWall_of_preservesWalls hb (try_move_preservesWalls world dx dy r)

theorem border_ring_always_wall_witness :
    borderWall 15 11 (build_world 15 11 sampleRng).1.grid ∧
    borderWall 5 5 (try_move sampleWorld 1 0 sampleRng).1.grid :=
  ⟨border_ring_always_wall.1 15 11 sampleRng (by decide) (by decide),
    border_ring_always_wall.2 5 5 sampleWorld 1 0 sampleRng (by decide)⟩

/-- C5: the player coordinate is always inside the grid and never on a wall
cell: `build_world` (for maps at least 3 by 3, as the game's 15 by 11 is)
puts the player at the grid centre, which is a floor cell, and `try_move`
preserves the property for every direction. -/
theorem player_position_invariant :
    (∀ (width height : Nat) (r : Rng), 3 ≤ width → 3 ≤ height →
      (build_world width height r).1.player_pos = (width / 2, height / 2) ∧
      player_ok (build_world width height r).1) ∧
    (∀ (world : World) (dx dy : Int) (r : Rng), player_ok world →
      player_ok (try_move world dx dy r).1) := by
  constructor
  · intro width height r hw hh
    refine ⟨rfl, player_ok_of_getCell ?_⟩
    show getCell (build_world width height r).1.grid (width / 2) (height / 2) ≠
      Cell.wall
    rw [(build_world_grid_facts width height r (by omega) (by omega)).2.2 hw hh]
    decide
  · intro world dx dy r hok
    rcases hcell : destCell world dx dy with _ | _ | _ | _ | _ | _
    · rw [try_move_eq_flavor r (by rw [hcell]; decide) (by rw [hcell]; decide)
        (by rw [hcell]; decide) (by rw [hcell]; decide) (by rw [hcell]; decide)]
      apply post_move_player_ok
      dsimp only
      unfold destCell at hcell
      rw [hcell]
      decide
    · rw [try_move_eq_blocked r hcell]
      exact hok
    · rw [try_move_eq_treasure r hcell]
      have hb := bounds_of_getCell_ne_wall
        (show getCell world.grid (dest world dx dy).1 (dest world dx dy).2 ≠ Cell.wall by
          unfold destCell at hcell; rw [hcell]; decide)
      apply post_move_player_ok
      dsimp only
      rw [getCell_setCell_self hb.1 hb.2]
      decide
    · rw [try_move_eq_trap r hcell]
      have hb := bounds_of_getCell_ne_wall
        (show getCell world.grid (dest world dx dy).1 (dest world dx dy).2 ≠ Cell.wall by
          unfold destCell at hcell; rw [hcell]; decide)
      apply post_move_player_ok
      dsimp only
      rw [getCell_setCell_self hb.1 hb.2]
      decide
    · rw [try_move_eq_heal r hcell]
      have hb := bounds_of_getCell_ne_wall
        (show getCell world.grid (dest world dx dy).1 (dest world dx dy).2 ≠ Cell.wall by
          unfold destCell at hcell; rw [hcell]; decide)
      apply post_move_player_ok
      dsimp only
      rw [getCell_setCell_self hb.1 hb.2]
      decide
    · rw [try_move_eq_exit r hcell]
      apply player_ok_of_getCell
      dsimp only
      unfold destCell at hcell
      rw [hcell]
      decide

theorem player_position_invariant_witness :
    player_ok (build_world 15 11 sampleRng).1 ∧
    player_ok (try_move sampleWorld 1 0 sampleRng).1 :=
  ⟨(player_position_invariant.1 15 11 sampleRng (by decide) (by decide)).2,
    player_position_invariant.2 sampleWorld 1 0 sampleRng (by decide)⟩

/-- C6: stepping onto the exit cell sets `won`, sets the victory message,
and skips both post-move steps — the result is exactly the moved world with
`won := true` and the random streams untouched (so no exit-spawn check and
no random event spawn ran); and once `won` is true the loop never mutates
that world instance again: the next iteration either quits or replaces it
with a fresh `build_world`. -/
theorem exit_step_wins_and_freezes :
    (∀ (world : World) (dx dy : Int) (r : Rng),
      destCell world dx dy = Cell.exitDoor →
      try_move world dx dy r =
        ({ world with
            player_pos := dest world dx dy,
            turn := world.turn + 1,
            won := true,
            message := msg_victory }, r)) ∧
    (∀ (width height : Nat) (world : World) (input : String) (r : Rng),
      world.won = true →
      (loop_step width height world input r).1 = StepResult.quit ∨
      (loop_step width height world input r).1 =
        StepResult.next (build_world width height r).1) :=
  ⟨fun _ _ _ r h => try_move_eq_exit r h, loop_step_won_fresh⟩

theorem exit_step_wins_and_freezes_witness :
    try_move exitWorld 0 (-1) sampleRng =
      ({ exitWorld with
          player_pos := dest exitWorld 0 (-1),
          turn := exitWorld.turn + 1,
          won := true,
          message := msg_victory }, sampleRng) ∧
    ((loop_step 15 11 wonWorld "x" sampleRng).1 = StepResult.quit ∨
      (loop_step 15 11 wonWorld "x" sampleRng).1 =
        StepResult.next (build_world 15 11 sampleRng).1) :=
  ⟨exit_step_wins_and_freezes.1 exitWorld 0 (-1) sampleRng (by decide),
    exit_step_wins_and_freezes.2 15 11 wonWorld "x" sampleRng (by decide)⟩

/-- C7: no World Simulator operation raises.  The exception-aware variants
(`build_worldE`, `try_moveE`), in which every Python `IndexError` and
`ValueError` site returns `none`, agree with the total functions on every
world whose grid is rectangular and at least 3 by 3 (the game only builds
15 by 11 grids), and `build_worldE` succeeds for all positive dimensions.
The edge cases degrade to a narration message with no state corruption: a
blocked move only sets the message, exhausted `spawn_exit` retries only set
the message (leaving `exit_spawned` false), and an unknown command only sets
the unknown-command notice. -/
theorem no_operation_raises :
    (∀ (width height : Nat) (r : Rng), 1 ≤ width → 1 ≤ height →
      build_worldE width height r = some (build_world width height r)) ∧
    (∀ (world : World) (dx dy : Int) (r : Rng) (w h : Nat),
      rectGrid world.grid w h → 3 ≤ w → 3 ≤ h →
      try_moveE world dx dy r = some (try_move world dx dy r)) ∧
    (∀ (world : World) (dx dy : Int) (r : Rng),
      destCell world dx dy = Cell.wall →
      try_move world dx dy r = ({ world with message := msg_blocked }, r)) ∧
    (∀ (world : World) (r : Rng),
      (∃ r', spawn_exit world r = ({ world with message := msg_exit_fail }, r')) ∨
      (∃ x y r', ¬(x = world.player_pos.1 ∧ y = world.player_pos.2) ∧
        getCell world.grid x y = Cell.floor ∧
        spawn_exit world r =
          ({ world with
              grid := setCell world.grid x y Cell.exitDoor,
              exit_spawned := true,
              message := msg_exit_spawned }, r'))) ∧
    (∀ (width height : Nat) (world : World) (input : String) (r : Rng),
      world.won = false → ¬world.hp ≤ 0 →
      moves.lookup (parse_command input) = none →
      parse_command input ≠ "x" → parse_command input ≠ "h" →
      parse_command input ≠ "r" →
      loop_step width height world input r =
        (StepResult.next { world with message := msg_unknown }, r)) := by
  refine ⟨?_, ?_, ?_, spawn_exit_cases, ?_⟩
  · intro width height r hw hh
    exact build_worldE_eq width height r hw hh
  · intro world dx dy r w h rect hw hh
    exact try_moveE_eq world dx dy r rect hw hh
  · intro world dx dy r h
    exact try_move_eq_blocked r h
  · intro width height world input r hwon hhp hlook hx hh hr
    rw [loop_step_active width height world input r hwon hhp,
      if_neg hx, if_neg hh, if_neg hr, hlook]

theorem no_operation_raises_witness :
    try_moveE sampleWorld 1 0 sampleRng = some (try_move sampleWorld 1 0 sampleRng) ∧
    build_worldE 15 11 sampleRng = some (build_world 15 11 sampleRng) ∧
    loop_step 15 11 sampleWorld "k" sampleRng =
      (StepResult.next { sampleWorld with message := msg_unknown }, sampleRng) :=
  ⟨no_operation_raises.2.1 sampleWorld 1 0 sampleRng 5 5 (by decide) (by decide)
      (by decide),
    no_operation_raises.1 15 11 sampleRng (by decide) (by decide),
    no_operation_raises.2.2.2.2 15 11 sampleWorld "k" sampleRng (by decide)
      (by decide) (by decide) (by decide) (by decide) (by decide)⟩

/-- C8: the random event spawn.  Once the exit has spawned it does nothing
at all.  Otherwise one uniform random value is drawn: at or above 0.20
nothing happens; below 0.12 a treasure placement is attempted, and between
the two a trap placement — each bounded-retry, writing the symbol on one
random floor cell away from the player and appending the flavour text on
success, or silently leaving the world unchanged on exhaustion. -/
theorem random_event_spawn_spec :
    (∀ (world : World) (r : Rng), world.exit_spawned = true →
      maybe_spawn world r = (world, r)) ∧
    (∀ (world : World) (r : Rng), world.exit_spawned = false →
      (0.20 ≤ (randFloat r).1 → maybe_spawn world r = (world, (randFloat r).2)) ∧
      ((randFloat r).1 < 0.12 →
        (∃ r', maybe_spawn world r = (world, r')) ∨
        (∃ x y r', ¬(x = world.player_pos.1 ∧ y = world.player_pos.2) ∧
          getCell world.grid x y = Cell.floor ∧
          maybe_spawn world r =
            ({ world with
                grid := setCell world.grid x y Cell.treasure,
                message := world.message ++ spawn_flavor Cell.treasure }, r'))) ∧
      (0.12 ≤ (randFloat r).1 → (randFloat r).1 < 0.20 →
        (∃ r', maybe_spawn world r = (world, r')) ∨
        (∃ x y r', ¬(x = world.player_pos.1 ∧ y = world.player_pos.2) ∧
          getCell world.grid x y = Cell.floor ∧
          maybe_spawn world r =
            ({ world with
                grid := setCell world.grid x y Cell.trap,
                message := world.message ++ spawn_flavor Cell.trap }, r')))) := by
  constructor
  · intro world r hsp
    rw [maybe_spawn, if_pos hsp]
  · intro world r hsp
    rw [maybe_spawn, if_neg (by rw [hsp]; exact Bool.false_ne_true)]
    simp only [randFloat]
    refine ⟨?_, ?_, ?_⟩
    · intro h20
      rw [if_neg (not_lt.2 (le_trans (by norm_num) h20)),
        if_neg (not_lt.2 h20)]
    · intro h12
      rw [if_pos h12]
      exact maybe_spawn_go_spec world.player_pos.1 world.player_pos.2
        (world.grid.getD 0 []).length world.grid.length Cell.treasure 60 world _
    · intro h12 h20
      rw [if_neg (not_lt.2 h12), if_pos h20]
      exact maybe_spawn_go_spec world.player_pos.1 world.player_pos.2
        (world.grid.getD 0 []).length world.grid.length Cell.trap 60 world _

theorem random_event_spawn_spec_witness :
    maybe_spawn sampleWorld sampleRng = (sampleWorld, (randFloat sampleRng).2) ∧
    maybe_spawn exitWorld sampleRng = (exitWorld, sampleRng) :=
  ⟨(random_event_spawn_spec.2 sampleWorld sampleRng (by decide)).1
      (by norm_num [randFloat, sampleRng]),
    random_event_spawn_spec.1 exitWorld sampleRng (by decide)⟩

/-- C10: `parse_command` strips surrounding whitespace, lowercases, and
keeps only the first character (empty input gives the empty command); the
loop dispatches on that normalised command only, so any longer input acts
as the single-character command of its first trimmed-and-lowercased
character — in particular, on an active world an input normalising to `x`
quits and one normalising to `r` replaces the world with a fresh
`build_world`. -/
theorem parse_command_first_char_dispatch :
    (parse_command "" = "") ∧
    (∀ s : String, s ≠ "" →
      parse_command s = ⟨(pyLower (pyStrip s.data)).take 1⟩) ∧
    (∀ (width height : Nat) (world : World) (input input' : String) (r : Rng),
      parse_command input = parse_command input' →
      loop_step width height world input r = loop_step width height world input' r) ∧
    (∀ (width height : Nat) (world : World) (input : String) (r : Rng),
      world.won = false → ¬world.hp ≤ 0 →
      ((pyLower (pyStrip input.data)).take 1 = ['x'] → input ≠ "" →
        loop_step width height world input r = (StepResult.quit, r)) ∧
      ((pyLower (pyStrip input.data)).take 1 = ['r'] → input ≠ "" →
        loop_step width height world input r =
          (StepResult.next (build_world width height r).1,
            (build_world width height r).2))) := by
  refine ⟨rfl, fun s hs => by rw [parse_command, if_neg hs], ?_, ?_⟩
  · intro width height world input input' r h
    simp only [loop_step, h]
  · intro width height world input r hwon hhp
    constructor
    · intro hx hin
      have hpc : parse_command input = "x" := by
        rw [parse_command, if_neg hin, hx]
      rw [loop_step_active width height world input r hwon hhp, if_pos hpc]
    · intro hr hin
      have hpc : parse_command input = "r" := by
        rw [parse_command, if_neg hin, hr]
      rw [loop_step_active width height world input r hwon hhp,
        if_neg (by rw [hpc]; decide), if_neg (by rw [hpc]; decide), if_pos hpc]

theorem parse_command_first_char_dispatch_witness :
    loop_step 15 11 sampleWorld "  Xyz  " sampleRng = (StepResult.quit, sampleRng) ∧
    loop_step 15 11 sampleWorld "Restart please" sampleRng =
      (StepResult.next (build_world 15 11 sampleRng).1,
        (build_world 15 11 sampleRng).2) :=
  ⟨(parse_command_first_char_dispatch.2.2.2 15 11 sampleWorld "  Xyz  " sampleRng
      (by decide) (by decide)).1 (by decide) (by decide),
    (parse_command_first_char_dispatch.2.2.2 15 11 sampleWorld "Restart please"
      sampleRng (by decide) (by decide)).2 (by decide) (by decide)⟩

end Dungeon

namespace TrumpQuote

/-- C9: every failure of the quote-fetch utility — transport error,
non-success status, malformed JSON body, payload that is not an object,
missing or wrong-typed (or empty) `message` field — makes
`get_random_trump_quote` return a single error text, which `main` prints as
one `Erreur:` line before returning normally; on success `main` prints the
quote block.  Every response falls into exactly one of the two cases, so the
process always continues to a normal exit with no retry. -/
theorem quote_failures_one_error_line (resp : HttpResult) :
    ((∃ q, get_random_trump_quote resp = Except.ok q) ∨
      (∃ m, get_random_trump_quote resp = Except.error m)) ∧
    (∀ m, get_random_trump_quote resp = Except.error m →
      trump_main resp = "Erreur: " ++ m) ∧
    (∀ q, get_random_trump_quote resp = Except.ok q →
      trump_main resp = "🗨️ Citation aléatoire :\n\n" ++ "“" ++ q ++ "”") ∧
    (∀ e, resp = HttpResult.urlError e →
      ∃ m, get_random_trump_quote resp = Except.error m) ∧
    (∀ status body, resp = HttpResult.response status body → status ≠ 200 →
      ∃ m, get_random_trump_quote resp = Except.error m) ∧
    (∀ status, resp = HttpResult.response status none →
      ∃ m, get_random_trump_quote resp = Except.error m) ∧
    (∀ status fields, resp = HttpResult.response status (some (Json.obj fields)) →
      fields.lookup "message" = none →
      ∃ m, get_random_trump_quote resp = Except.error m) ∧
    (∀ status fields j, resp = HttpResult.response status (some (Json.obj fields)) →
      fields.lookup "message" = some j → (∀ t, j ≠ Json.str t) →
      ∃ m, get_random_trump_quote resp = Except.error m) := by
  refine ⟨?_, ?_, ?_, ?_, ?_, ?_, ?_, ?_⟩
  · rcases hgq : get_random_trump_quote resp with m | q
    · exact Or.inr ⟨m, rfl⟩
    · exact Or.inl ⟨q, rfl⟩
  · intro m h
    rw [trump_main, h]
  · intro q h
    rw [trump_main, h]
  · intro e h
    subst h
    exact ⟨_, rfl⟩
  · intro status body h hne
    subst h
    exact ⟨_, by simp only [get_random_trump_quote.eq_def]; rw [if_pos hne]⟩
  · intro status h
    subst h
    by_cases h200 : status ≠ 200
    · exact ⟨_, by simp only [get_random_trump_quote.eq_def]; rw [if_pos h200]⟩
    · exact ⟨_, by simp only [get_random_trump_quote.eq_def]; rw [if_neg h200]⟩
  · intro status fields h hlook
    subst h
    by_cases h200 : status ≠ 200
    · exact ⟨_, by simp only [get_random_trump_quote.eq_def]; rw [if_pos h200]⟩
    · refine ⟨"Réponse inattendue de l'API.", ?_⟩
      simp only [get_random_trump_quote.eq_def]
      rw [if_neg h200]
      simp only [jsonGet]
      rw [hlook]
  · intro status fields j h hlook hnstr
    subst h
    by_cases h200 : status ≠ 200
    · exact ⟨_, by simp only [get_random_trump_quote.eq_def]; rw [if_pos h200]⟩
    · refine ⟨"Réponse inattendue de l'API.", ?_⟩
      simp only [get_random_trump_quote.eq_def]
      rw [if_neg h200]
      simp only [jsonGet]
      rw [hlook]
      cases j with
      | str t => exact absurd rfl (hnstr t)
      | null => rfl
      | bool b => rfl
      | num q => rfl
      | arr l => rfl
      | obj f => rfl

theorem quote_failures_one_error_line_witness :
    trump_main (HttpResult.urlError "timeout") =
      "Erreur: " ++ "Impossible de contacter l'API: timeout" ∧
    trump_main (HttpResult.response 200
        (some (Json.obj [("message", Json.str "Covfefe")]))) =
      "🗨️ Citation aléatoire :\n\n" ++ "“" ++ "Covfefe" ++ "”" :=
  ⟨(quote_failures_one_error_line (HttpResult.urlError "timeout")).2.1 _ rfl,
    (quote_failures_one_error_line (HttpResult.response 200
        (some (Json.obj [("message", Json.str "Covfefe")])))).2.2.1 "Covfefe" rfl⟩

end TrumpQuote
